import Mathlib

/-!
# go_clog: the guarded log writer and its file rotation

A shallow embedding of `clog/clog.go`.  The package state (configuration,
visibility flags, file handle) and the parts of the process environment the
code touches (the file system, standard output) are one record, `Sys`; every
function of the package becomes a function from `Sys` to `Sys` together with
the Go `error` it returns.  File-system calls may fail: an environment `Env`
says which calls do.
-/

namespace Clog

/-! ## Values of the `fmt` package used by the code -/

/-- An operand handed to a formatting call (`interface{}` in the source): the
code passes strings, integers and, once, a nil file pointer. -/
inductive Arg where
  | str (s : String)
  | int (i : Int)
  | nilFile
  deriving DecidableEq, Repr

/-- Decimal digits of a natural number, most significant first; `count` bounds
the number of digits produced. -/
def decDigits : Nat → Nat → List Char
  | 0, _ => []
  | count + 1, n =>
    if n < 10 then [Char.ofNat (48 + n)]
    else decDigits count (n / 10) ++ [Char.ofNat (48 + n % 10)]

/-- The text of a natural number in base ten. -/
def natText (n : Nat) : List Char := decDigits (n + 1) n

/-- What `%d` prints for an integer under the zero flag and a width
(`fmt.fmtInteger`): the digits are padded with zeros up to the width, one
column of which is taken by the sign; without the zero flag the padding is
blanks on the left. -/
def fmtInteger (zero : Bool) (wid : Nat) (i : Int) : List Char :=
  let digits := natText i.natAbs
  let sign : List Char := if i < 0 then ['-'] else []
  if zero then
    let prec := wid - sign.length
    sign ++ List.replicate (prec - digits.length) '0' ++ digits
  else
    let body := sign ++ digits
    List.replicate (wid - body.length) ' ' ++ body

/-- The Go type name of an operand, as the error forms of `fmt` show it. -/
def Arg.typeName : Arg → List Char
  | .str _ => "string".data
  | .int _ => "int".data
  | .nilFile => "*os.File".data

/-- What `%v` prints for an operand. -/
def Arg.plain : Arg → List Char
  | .str s => s.data
  | .int i => fmtInteger false 0 i
  | .nilFile => "<nil>".data

/-- The bad-verb form `%!verb(type=value)`. -/
def badVerb (verb : Char) (a : Arg) : List Char :=
  ['%', '!', verb, '('] ++ a.typeName ++ ['='] ++ a.plain ++ [')']

/-- One operand under one verb (`fmt.printArg`), for the verbs `d`, `s` and
`v`; `none` for a verb, or a flag on a verb, that this model of `fmt` does not
cover. -/
def printArg (zero : Bool) (wid : Option Nat) (verb : Char) (a : Arg) : Option (List Char) :=
  match verb, a with
  | 'd', .int i => some (fmtInteger zero (wid.getD 0) i)
  | 'd', a => some (badVerb 'd' a)
  | 's', .str s => if zero || wid.isSome then none else some s.data
  | 's', a => if zero || wid.isSome then none else some (badVerb 's' a)
  | 'v', a => if zero || wid.isSome then none else some a.plain
  | _, _ => none

/-- Leading `0` flags of a verb: whether there is one, and the rest. -/
def takeZeros : List Char → Bool × List Char
  | '0' :: cs => (true, (takeZeros cs).2)
  | cs => (false, cs)

/-- The decimal width of a verb (`fmt.parsenum`): the number read so far,
whether a digit was seen, and the rest. -/
def parsenum : List Char → Nat → Bool → Nat × Bool × List Char
  | c :: cs, acc, seen =>
    if c.isDigit then parsenum cs (acc * 10 + (c.toNat - 48)) true
    else (acc, seen, c :: cs)
  | [], acc, seen => (acc, seen, [])

/-- The operands left over when the format is used up are reported in the form
`%!(EXTRA type=value, ...)`. -/
def extraArgs : List Arg → List Char
  | [] => []
  | a :: as =>
    "%!(EXTRA ".data ++ a.typeName ++ ['='] ++ a.plain
      ++ (as.flatMap fun b => [',', ' '] ++ b.typeName ++ ['='] ++ b.plain) ++ [')']

/-- The formatting loop of `fmt` (`doPrintf`) on the fragment the package
needs: literal text, `%%`, and the verbs `d`, `s`, `v` with an optional zero
flag and width.  A verb without operand prints `%!verb(MISSING)`, a `%` that
ends the format prints `%!(NOVERB)`.  The result is `none` when the format
leaves the fragment.  The first argument bounds the number of steps. -/
def doPrintf : Nat → List Char → List Arg → Option (List Char)
  | 0, _, _ => none
  | _ + 1, [], args => some (extraArgs args)
  | fuel + 1, '%' :: cs, args =>
    let z := takeZeros cs
    let w := parsenum z.2 0 false
    if 1000000 < w.1 then none else
    match w.2.2 with
    | [] => some "%!(NOVERB)".data
    | '%' :: rest => (doPrintf fuel rest args).map fun r => '%' :: r
    | verb :: rest =>
      if verb = '#' ∨ verb = '+' ∨ verb = '-' ∨ verb = ' ' ∨ verb = '*' ∨ verb = '.'
          ∨ verb = '[' then none
      else match args with
        | [] => (doPrintf fuel rest []).map fun r => ['%', '!', verb] ++ "(MISSING)".data ++ r
        | a :: as =>
          match printArg z.1 (if w.2.1 then some w.1 else none) verb a with
          | none => none
          | some out => (doPrintf fuel rest as).map fun r => out ++ r
  | fuel + 1, c :: cs, args => (doPrintf fuel cs args).map fun r => c :: r

/-- The function `fmt.Sprintf`, on the modelled fragment; outside of it the
value is the empty string. -/
def goSprintf (format : String) (args : List Arg) : String :=
  match doPrintf (format.length + 1) format.data args with
  | some r => String.mk r
  | none => ""

/-! ## Constants of the package -/

def minRotateSize : Int := 1 * 1024 * 1024

def maxRotateSize : Int := 256 * 1024 * 1024

def minRotateCnt : Int := 1

def maxRotateCnt : Int := 99

def timeFmt : String := "2006/01/02-15:04:05"

def rotateFmt : String := "%s.%02d"

def prefixFmt : String := "%s %s(%04d).%s: "

/-- The type of a message: the constants `MsgErr`, `MsgWrn`, `MsgInf` and
`MsgDbg` of the package (the values 0 to 3 of the source; another `int` makes
the index into `msgTypeShowList` fail and is not a message type). -/
inductive MsgType where
  | MsgErr
  | MsgWrn
  | MsgInf
  | MsgDbg
  deriving DecidableEq, Repr

open MsgType

/-- Text that stands for each message type in the message prefix. -/
def msgTypePrefixList : MsgType → String
  | MsgErr => "ERR"
  | MsgWrn => "WRN"
  | MsgInf => "INF"
  | MsgDbg => "DBG"

/-- The configuration record of the package. -/
structure CLogConfigInfo where
  OutputToStdout : Bool
  OutputToFile : Bool
  OutputFilePath : String
  RotateFile : Bool
  RotateSize : Int
  RotateCnt : Int
  ShowErr : Bool
  ShowWrn : Bool
  ShowInf : Bool
  ShowDbg : Bool
  deriving DecidableEq, Repr

/-! ## The environment: errors, the file system, the process state -/

/-- A Go `error` value: its text, and whether `os.IsNotExist` holds of it.
The Go value `nil` is `none : Option GoError`. -/
structure GoError where
  text : String
  notExist : Bool
  deriving DecidableEq, Repr

/-- The error of a file-system call that the environment makes fail. -/
def ioError (op path : String) : GoError :=
  { text := op ++ " " ++ path ++ ": input/output error", notExist := false }

/-- The error of a call on a path that names no file. -/
def notExistError (op path : String) : GoError :=
  { text := op ++ " " ++ path ++ ": no such file or directory", notExist := true }

/-- The error of a method called on a nil `*os.File` (`os.ErrInvalid`). -/
def errInvalid : GoError := { text := "invalid argument", notExist := false }

/-- The file system: directory entries name files (by number), files have
contents, and `next` is the number the next file created will get.  An open
file handle is the number of its file, so it follows the file through a
rename. -/
structure FileSys where
  dir : String → Option Nat
  data : Nat → String
  next : Nat

/-- The site of a logging call, as `runtime.Caller(1)` reports it. -/
structure Caller where
  file : String
  line : Nat
  deriving DecidableEq, Repr

/-- The package state and the environment it acts on.
`tick` counts the file-system calls made so far, `stdout` is the list of
texts written to standard output, oldest first, and `lockCount` the number of
times `fileMutex` has been locked. -/
structure Sys where
  fs : FileSys
  tick : Nat
  stdout : List String
  lockCount : Nat
  msgTypeShowList : MsgType → Bool
  cLogCfg : CLogConfigInfo
  fileRD : Option Nat

/-- What the code cannot decide: `fault n` says that the file-system call
number `n` fails with an I/O error, `sprintf` is `fmt.Sprintf` on the formats
and operands of the caller, and `clock n` is the formatted time of day after
`n` file-system calls. -/
structure Env where
  fault : Nat → Bool
  sprintf : String → List Arg → String
  clock : Nat → String

/-- Values of the package variables when the program starts. -/
def msgTypeShowList0 : MsgType → Bool
  | MsgErr => true
  | _ => false

def cLogCfg0 : CLogConfigInfo :=
  { OutputToStdout := false, OutputToFile := false, OutputFilePath := "", RotateFile := false,
    RotateSize := 0, RotateCnt := 0, ShowErr := false, ShowWrn := false, ShowInf := false,
    ShowDbg := false }

/-- Replace one directory entry. -/
def setDir (dir : String → Option Nat) (path : String) (v : Option Nat) : String → Option Nat :=
  fun q => if q = path then v else dir q

/-- Replace the contents of one file. -/
def setData (data : Nat → String) (i : Nat) (v : String) : Nat → String :=
  fun j => if j = i then v else data j

/-- The call `os.Stat(path)`, reduced to the size it reports. -/
def osStat (env : Env) (path : String) (s : Sys) : Sys × Except GoError Nat :=
  let s1 := { s with tick := s.tick + 1 }
  if env.fault s.tick then (s1, .error (ioError "stat" path))
  else match s.fs.dir path with
    | none => (s1, .error (notExistError "stat" path))
    | some i => (s1, .ok (s.fs.data i).utf8ByteSize)

/-- The call `os.Remove(path)`. -/
def osRemove (env : Env) (path : String) (s : Sys) : Sys × Option GoError :=
  let s1 := { s with tick := s.tick + 1 }
  if env.fault s.tick then (s1, some (ioError "remove" path))
  else match s.fs.dir path with
    | none => (s1, some (notExistError "remove" path))
    | some _ => ({ s1 with fs := { s.fs with dir := setDir s.fs.dir path none } }, none)

/-- The call `os.Rename(oldpath, newpath)`: the entry `newpath` is replaced. -/
def osRename (env : Env) (oldpath newpath : String) (s : Sys) : Sys × Option GoError :=
  let s1 := { s with tick := s.tick + 1 }
  if env.fault s.tick then (s1, some (ioError "rename" oldpath))
  else match s.fs.dir oldpath with
    | none => (s1, some (notExistError "rename" oldpath))
    | some i =>
      if oldpath = newpath then (s1, none)
      else
        ({ s1 with fs := { s.fs with dir := setDir (setDir s.fs.dir newpath (some i)) oldpath none } },
          none)

/-- The call `os.OpenFile(path, openFlag, openMode)` with
`openFlag = O_CREATE | O_RDWR | O_APPEND`: an existing file is opened, a
missing one is created empty.  The handle is the second component. -/
def osOpenFile (env : Env) (path : String) (s : Sys) : Sys × Except GoError Nat :=
  let s1 := { s with tick := s.tick + 1 }
  if env.fault s.tick then (s1, .error (ioError "open" path))
  else match s.fs.dir path with
    | some i => (s1, .ok i)
    | none =>
      ({ s1 with fs := { dir := setDir s.fs.dir path (some s.fs.next),
                         data := setData s.fs.data s.fs.next "",
                         next := s.fs.next + 1 } },
        .ok s.fs.next)

/-- The method `(*os.File).WriteString` on the handle `fileRD`: on a nil
handle it returns `os.ErrInvalid` without a system call; the file was opened
for appending, so the text goes to its end. -/
def fileWriteString (env : Env) (msg : String) (s : Sys) : Sys × Option GoError :=
  match s.fileRD with
  | none => (s, some errInvalid)
  | some i =>
    let s1 := { s with tick := s.tick + 1 }
    if env.fault s.tick then (s1, some (ioError "write" ""))
    else ({ s1 with fs := { s.fs with data := setData s.fs.data i (s.fs.data i ++ msg) } }, none)

/-- The part of a path after its last `/` (`filePath[nameIdx:]`). -/
def afterLastSlash : List Char → List Char
  | [] => []
  | c :: cs =>
    if cs.contains '/' then afterLastSlash cs
    else if c = '/' then cs else c :: cs

/-- The source file of the package itself, the caller of its own `PrintMsg`
calls. -/
def thisFile : String := "clog/clog.go"

/-- The prefix of a message: time, file name, line and message type. -/
def msgPrefix (env : Env) (c : Caller) (msgType : MsgType) (s : Sys) : String :=
  env.sprintf prefixFmt
    [.str (env.clock s.tick), .str (String.mk (afterLastSlash c.file.data)), .int c.line,
      .str (msgTypePrefixList msgType)]

/-! ## The functions of the package -/

/-- The function `PrintMsg`, called from the site `c`. -/
def PrintMsg (env : Env) (c : Caller) (msgType : MsgType) (msgFmt : String) (msgArg : List Arg)
    (s : Sys) : Sys :=
  if s.msgTypeShowList msgType = true then
    let msgData := msgPrefix env c msgType s
    { s with stdout := s.stdout ++ [env.sprintf (msgData ++ msgFmt ++ "\n") msgArg] }
  else s

/-- The function `checkFileExist`. -/
def checkFileExist (env : Env) (filePath : String) (s : Sys) : Sys × Bool × Option GoError :=
  match osStat env filePath s with
  | (s1, .ok _) => (s1, true, none)
  | (s1, .error e) =>
    if e.notExist = true then (s1, false, none)
    else
      (PrintMsg env ⟨thisFile, 149⟩ MsgErr "call os.Stat(%s) fail [%s]" [.str filePath, .str e.text] s1,
        false, some e)

/-- The name of a rotated file (`fmt.Sprintf(rotateFmt, path, num)`). -/
def rotatePath (path : String) (num : Nat) : String :=
  goSprintf rotateFmt [.str path, .int num]

/-- The value of an `int64` sum. -/
def wrapInt64 (x : Int) : Int := (x + 2 ^ 63) % 2 ^ 64 - 2 ^ 63

/-- The first loop of `doRotate`, entered with the counter `usableNum`: the
search for the free number.  The loop is left at the latest when `usableNum`
reaches `RotateCnt`; `gap` bounds the iterations still to come. -/
def findUsable (env : Env) : Nat → Nat → Sys → Sys × Nat × Option GoError
  | gap, usableNum, s =>
    let oldFilePath := rotatePath s.cLogCfg.OutputFilePath usableNum
    match checkFileExist env oldFilePath s with
    | (s1, _, some e) =>
      (PrintMsg env ⟨thisFile, 192⟩ MsgErr "call checkFileExist() fail" [] s1, usableNum, some e)
    | (s1, false, none) => (s1, usableNum, none)
    | (s1, true, none) =>
      if s1.cLogCfg.RotateCnt ≤ (usableNum : Int) then
        match osRemove env oldFilePath s1 with
        | (s2, some e) =>
          (PrintMsg env ⟨thisFile, 206⟩ MsgErr "call os.Remove(%s) fail [%s]"
              [.str oldFilePath, .str e.text] s2, usableNum, some e)
        | (s2, none) => (s2, usableNum, none)
      else
        match gap with
        | 0 => (s1, usableNum, none)
        | gap + 1 => findUsable env gap (usableNum + 1) s1

/-- The second loop of `doRotate`: the kept files move up by one number, the
highest first.  The result carries the final value of `usableNum`. -/
def shiftKept (env : Env) : Nat → Sys → Sys × Nat × Option GoError
  | 0, s => (s, 0, none)
  | 1, s => (s, 1, none)
  | usableNum + 2, s =>
    let oldFilePath := rotatePath s.cLogCfg.OutputFilePath (usableNum + 1)
    let newFilePath := rotatePath s.cLogCfg.OutputFilePath (usableNum + 2)
    match osRename env oldFilePath newFilePath s with
    | (s1, some e) =>
      (PrintMsg env ⟨thisFile, 222⟩ MsgErr "call os.Rename(%s, %s) fail [%s]"
          [.str oldFilePath, .str newFilePath, .str e.text] s1, usableNum + 2, some e)
    | (s1, none) => shiftKept env (usableNum + 1) s1

/-- The last steps of `doRotate`: the handle is closed, the active file takes
the number `usableNum`, and the active path is opened again. -/
def moveActive (env : Env) (usableNum : Nat) (s : Sys) : Sys × Option GoError :=
  -- fileRD.Close(); fileRD = nil
  let s3 := { s with fileRD := none }
  let newFilePath := rotatePath s3.cLogCfg.OutputFilePath usableNum
  match osRename env s3.cLogCfg.OutputFilePath newFilePath s3 with
  | (s4, some e) =>
    (PrintMsg env ⟨thisFile, 236⟩ MsgErr "call os.Rename(%s, %s) fail [%s]"
        [.str s3.cLogCfg.OutputFilePath, .str newFilePath, .str e.text] s4, some e)
  | (s4, none) =>
    match osOpenFile env s4.cLogCfg.OutputFilePath s4 with
    | (s5, .error e) =>
      (PrintMsg env ⟨thisFile, 244⟩ MsgErr "call os.OpenFile(%s) fail [%s]"
          [.nilFile, .str e.text] { s5 with fileRD := none }, some e)
    | (s5, .ok h) => ({ s5 with fileRD := some h }, none)

/-- The rotation proper, the part of `doRotate` after the size check. -/
def rotateFiles (env : Env) (s : Sys) : Sys × Option GoError :=
  match findUsable env (s.cLogCfg.RotateCnt.toNat) 1 s with
  | (s1, _, some e) => (s1, some e)
  | (s1, usableNum, none) =>
    match shiftKept env usableNum s1 with
    | (s2, _, some e) => (s2, some e)
    | (s2, usableNum, none) => moveActive env usableNum s2

/-- The function `doRotate`. -/
def doRotate (env : Env) (msgLen : Nat) (s : Sys) : Sys × Option GoError :=
  match osStat env s.cLogCfg.OutputFilePath s with
  | (s1, .error e) =>
    (PrintMsg env ⟨thisFile, 176⟩ MsgErr "call os.Stat(%s) fail [%s]"
        [.str s.cLogCfg.OutputFilePath, .str e.text] s1, some e)
  | (s1, .ok size) =>
    if wrapInt64 ((msgLen : Int) + (size : Int)) < s1.cLogCfg.RotateSize then (s1, none)
    else rotateFiles env s1

/-- The function `LogMsg`, called from the site `c`. -/
def LogMsg (env : Env) (c : Caller) (msgType : MsgType) (msgFmt : String) (msgArg : List Arg)
    (s : Sys) : Sys × Option GoError :=
  if s.msgTypeShowList msgType = true then
    -- fileMutex.Lock(); the deferred Unlock leaves nothing behind
    let s := { s with lockCount := s.lockCount + 1 }
    let msgData :=
      if s.cLogCfg.OutputToStdout = true ∨ s.cLogCfg.OutputToFile = true then
        env.sprintf (msgPrefix env c msgType s ++ msgFmt ++ "\n") msgArg
      else ""
    let s :=
      if s.cLogCfg.OutputToStdout = true then
        { s with stdout := s.stdout ++ [env.sprintf msgData []] }
      else s
    if s.cLogCfg.OutputToFile = true then
      let r := if s.cLogCfg.RotateFile = true then doRotate env msgData.utf8ByteSize s else (s, none)
      match r with
      | (s1, some e) => (PrintMsg env ⟨thisFile, 297⟩ MsgErr "call doRotate() fail" [] s1, some e)
      | (s1, none) =>
        match fileWriteString env msgData s1 with
        | (s2, some e) =>
          (PrintMsg env ⟨thisFile, 303⟩ MsgErr "call os.WriteString(%s) fail [%s]"
              [.str msgData, .str e.text] s2, some e)
        | (s2, none) => (s2, none)
    else (s, none)
  else (s, none)

/-- The function `ChangeShow`. -/
def ChangeShow (argCLogCfg : CLogConfigInfo) (s : Sys) : Sys :=
  { s with msgTypeShowList := fun
      | MsgDbg => argCLogCfg.ShowDbg
      | MsgInf => argCLogCfg.ShowInf
      | MsgWrn => argCLogCfg.ShowWrn
      | MsgErr => argCLogCfg.ShowErr }

/-- The deferred function of `DoInit`: after an error no handle stays open. -/
def closeOnError (r : Sys × Option GoError) : Sys × Option GoError :=
  match r with
  | (s, some e) => ({ s with fileRD := none }, some e)
  | (s, none) => (s, none)

/-- The function `DoInit`. -/
def DoInit (env : Env) (argCLogCfg : CLogConfigInfo) (s : Sys) : Sys × Option GoError :=
  closeOnError <|
    if argCLogCfg.OutputToFile = true then
      match osOpenFile env argCLogCfg.OutputFilePath s with
      | (s1, .error e) =>
        (PrintMsg env ⟨thisFile, 351⟩ MsgErr "invalid OutputFilePath, call os.OpenFile(%s) fail [%s]"
            [.str argCLogCfg.OutputFilePath, .str e.text] { s1 with fileRD := none }, some e)
      | (s1, .ok h) =>
        let s2 := { s1 with fileRD := some h }
        if argCLogCfg.RotateFile = true then
          if argCLogCfg.RotateSize < minRotateSize ∨ maxRotateSize < argCLogCfg.RotateSize then
            let tmpMsg := env.sprintf "invalid RotateSize [%d], must be [%d]~[%d]"
              [.int argCLogCfg.RotateSize, .int minRotateSize, .int maxRotateSize]
            (PrintMsg env ⟨thisFile, 361⟩ MsgErr tmpMsg [] s2, some ⟨tmpMsg, false⟩)
          else if argCLogCfg.RotateCnt < minRotateCnt ∨ maxRotateCnt < argCLogCfg.RotateCnt then
            let tmpMsg := env.sprintf "invalid RotateCnt [%d], must be [%d]~[%d]"
              [.int argCLogCfg.RotateCnt, .int minRotateCnt, .int maxRotateCnt]
            (PrintMsg env ⟨thisFile, 370⟩ MsgErr tmpMsg [] s2, some ⟨tmpMsg, false⟩)
          else (ChangeShow argCLogCfg { s2 with cLogCfg := argCLogCfg }, none)
        else (ChangeShow argCLogCfg { s2 with cLogCfg := argCLogCfg }, none)
    else (ChangeShow argCLogCfg { s with cLogCfg := argCLogCfg }, none)

/-- The function `DoExit`. -/
def DoExit (s : Sys) : Sys := { s with fileRD := none }

/-! ## Definitions used in the statements and proofs -/

/-- Value of a digit string. -/
def digitsVal (l : List Char) : Nat := l.foldl (fun a c => a * 10 + (c.toNat - 48)) 0

/-- No file is named by a number that is still to be given out. -/
def FileSys.wf (fs : FileSys) : Prop := ∀ p i, fs.dir p = some i → i < fs.next

/-- The contents of the file a path names. -/
def readFile (fs : FileSys) (path : String) : Option String := (fs.dir path).map fs.data

/-- Relation between a state and a later one when in between only rotated
files of `base` were removed or renamed: the contents of all files, the
package variables and every other directory entry are the same, and no file
got a name that had none. -/
structure SlotsOnly (base : String) (s t : Sys) : Prop where
  data : t.fs.data = s.fs.data
  next : t.fs.next = s.fs.next
  cfg : t.cLogCfg = s.cLogCfg
  handle : t.fileRD = s.fileRD
  shown : t.msgTypeShowList = s.msgTypeShowList
  locks : t.lockCount = s.lockCount
  ticks : s.tick ≤ t.tick
  other : ∀ p, (∀ k, p ≠ rotatePath base k) → t.fs.dir p = s.fs.dir p
  named : ∀ p i, t.fs.dir p = some i → ∃ q, s.fs.dir q = some i

/-- No file-system call fails. -/
def NoFault (env : Env) : Prop := ∀ n, env.fault n = false

/-- The full message `LogMsg` builds in the state `s`: prefix, formatted text,
newline. -/
def fullMsg (env : Env) (c : Caller) (msgType : MsgType) (msgFmt : String) (msgArg : List Arg)
    (s : Sys) : String :=
  env.sprintf (msgPrefix env c msgType s ++ msgFmt ++ "\n") msgArg

/-- The state in which `LogMsg` reaches its file branch: the lock has been
taken and, when enabled, the console has been written. -/
def beforeFile (env : Env) (c : Caller) (msgType : MsgType) (msgFmt : String) (msgArg : List Arg)
    (s : Sys) : Sys :=
  if s.cLogCfg.OutputToStdout = true then
    { s with lockCount := s.lockCount + 1,
             stdout := s.stdout ++ [env.sprintf (fullMsg env c msgType msgFmt msgArg s) []] }
  else { s with lockCount := s.lockCount + 1 }

/-- The state in which `LogMsg` writes to the file: after the rotation check,
when rotation is enabled. -/
def beforeWrite (env : Env) (c : Caller) (msgType : MsgType) (msgFmt : String) (msgArg : List Arg)
    (s : Sys) : Sys × Option GoError :=
  if s.cLogCfg.RotateFile = true then
    doRotate env (fullMsg env c msgType msgFmt msgArg s).utf8ByteSize
      (beforeFile env c msgType msgFmt msgArg s)
  else (beforeFile env c msgType msgFmt msgArg s, none)

/-- One round of use of the log file: the text `c` is written through the
handle, then `doRotate` is called for a message of `msgLen` bytes. -/
def fillAndRotate (env : Env) (msgLen : Nat) (c : String) (s : Sys) : Sys × Option GoError :=
  match fileWriteString env c s with
  | (s1, some e) => (s1, some e)
  | (s1, none) => doRotate env msgLen s1

/-- Rounds one after the other, one for each pair of a text and a message
length; an error ends them. -/
def rotations (env : Env) : List (String × Nat) → Sys → Sys × Option GoError
  | [], s => (s, none)
  | (c, msgLen) :: rs, s =>
    match fillAndRotate env msgLen c s with
    | (s1, some e) => (s1, some e)
    | (s1, none) => rotations env rs s1

/-- The test of `doRotate` sends a message of `msgLen` bytes to the rotation
in the state `s`: the active file is there, and `msgLen` plus its size, added
as `int64`, is not below `RotateSize`. -/
def rotationDue (msgLen : Nat) (s : Sys) : Prop :=
  ∃ i, s.fs.dir s.cLogCfg.OutputFilePath = some i
    ∧ ¬ wrapInt64 ((msgLen : Int) + ((s.fs.data i).utf8ByteSize : Int)) < s.cLogCfg.RotateSize

/-- Every round of `rotations` triggers a rotation: at each call of `doRotate`,
in the state after the write of the round, the test sends it to the
rotation. -/
def Triggered (env : Env) : List (String × Nat) → Sys → Prop
  | [], _ => True
  | (c, msgLen) :: rs, s =>
    rotationDue msgLen (fileWriteString env c s).1
      ∧ Triggered env rs (fillAndRotate env msgLen c s).1

/-- The sizes reach the threshold in every round, counted on the texts: the
first round finds `init` in the active file, each later round an empty file,
and the message length plus what the file holds after the write is at least
`rotateSize` and within `int64`. -/
def sizesReach (rotateSize : Int) (init : String) : List (String × Nat) → Prop
  | [] => True
  | (c, msgLen) :: rs =>
    rotateSize ≤ (msgLen : Int) + ((init ++ c).utf8ByteSize : Int)
      ∧ (msgLen : Int) + ((init ++ c).utf8ByteSize : Int) < 2 ^ 63
      ∧ sizesReach rotateSize "" rs

/-- The contents rotated away by the rounds, first round first: the first
round rotates what the file held before together with its text, each later
round its own text. -/
def rotatedTexts (init : String) : List String → List String
  | [] => []
  | c :: cs => (init ++ c) :: cs

/-- The state of the ring of backups: the handle is open on the active file
`a`, and `hist` lists the files rotated away so far with their contents, the
newest first, of which the backups `01` to `RotateCnt` name the first ones. -/
structure Ring (s : Sys) (a : Nat) (hist : List (Nat × String)) : Prop where
  wf : s.fs.wf
  active : s.fs.dir s.cLogCfg.OutputFilePath = some a
  handle : s.fileRD = some a
  slots : ∀ j, s.fs.dir (rotatePath s.cLogCfg.OutputFilePath j)
    = if 1 ≤ j ∧ (j : Int) ≤ s.cLogCfg.RotateCnt then (hist[j - 1]?).map Prod.fst else none
  contents : ∀ p ∈ hist, s.fs.data p.1 = p.2
  bound : ∀ p ∈ hist, p.1 < s.fs.next
  apart : ∀ p ∈ hist, p.1 ≠ a
  nodup : (hist.map Prod.fst).Nodup

/-- The states reached through a successful `DoInit` with file output and
rotation on, followed by calls of `LogMsg`, `ChangeShow` and `DoExit`. -/
inductive Reached (env : Env) : Sys → Prop
  | init (s0 : Sys) (cfg : CLogConfigInfo) : s0.fs.wf → cfg.OutputToFile = true →
      cfg.RotateFile = true → (DoInit env cfg s0).2 = none → Reached env (DoInit env cfg s0).1
  | log (s : Sys) (c : Caller) (msgType : MsgType) (msgFmt : String) (msgArg : List Arg) :
      Reached env s → Reached env (LogMsg env c msgType msgFmt msgArg s).1
  | changeShow (s : Sys) (cfg : CLogConfigInfo) : Reached env s → Reached env (ChangeShow cfg s)
  | exit (s : Sys) : Reached env s → Reached env (DoExit s)

/-- What holds in every such state: file output and rotation are on, and the
handle is nil or open on the file the active path names. -/
structure Ready (s : Sys) : Prop where
  wf : s.fs.wf
  file : s.cLogCfg.OutputToFile = true
  rot : s.cLogCfg.RotateFile = true
  handle : s.fileRD = none ∨ s.fileRD = s.fs.dir s.cLogCfg.OutputFilePath

/-- An environment in which no file-system call fails, with the modelled
fragment of `fmt.Sprintf` and a clock that stands still. -/
def exEnv : Env :=
  { fault := fun _ => false, sprintf := goSprintf, clock := fun _ => "2024/01/01-00:00:00" }

/-- The configuration set up by `main`. -/
def exCfg : CLogConfigInfo :=
  { OutputToStdout := true, OutputToFile := true, OutputFilePath := "log.txt", RotateFile := true,
    RotateSize := 2 * 1024 * 1024, RotateCnt := 4, ShowErr := true, ShowWrn := true,
    ShowInf := false, ShowDbg := false }

/-- The state of a program that has just started, on an empty directory. -/
def sys0 : Sys :=
  { fs := { dir := fun _ => none, data := fun _ => "", next := 0 }, tick := 0, stdout := [],
    lockCount := 0, msgTypeShowList := msgTypeShowList0, cLogCfg := cLogCfg0, fileRD := none }

/-- The state after `clog.DoInit(cLogCfg)` in `main`. -/
def exSys : Sys := (DoInit exEnv exCfg sys0).1

/-- The site of the first `clog.LogMsg` call of `main`. -/
def exCaller : Caller := { file := "example/main.go", line := 42 }

/-- A text of 2 MiB. -/
def bigText : String := String.mk (List.replicate 2097152 'x')

/-- A directory that holds a log file of 2 MiB, left by an earlier run. -/
def bigSys : Sys :=
  { sys0 with fs := { dir := fun p => if p = "log.txt" then some 0 else none,
                      data := fun _ => bigText, next := 1 } }

/-- An environment in which exactly the file-system call number `k` fails. -/
def faultAt (k : Nat) : Env := { exEnv with fault := fun n => n == k }

/-- The state after `DoInit` with the configuration of `main`, in the directory
with the large log file.  The call of `os.OpenFile` is call number 0. -/
def bigInit : Sys := (DoInit (faultAt 3) exCfg bigSys).1

/-- A directory with a log file of one byte. -/
def oneByteDir : Sys :=
  { sys0 with fs := { dir := fun p => if p = "log.txt" then some 0 else none,
                      data := fun _ => "x", next := 1 } }

/-- The state after `DoInit` with the configuration of `main` in that
directory. -/
def oneByteInit : Sys := (DoInit exEnv exCfg oneByteDir).1

/-- A state in the middle of a run with the configuration of `main`: the active
file holds `new`, the backups `01` and `02` hold `old1` and `old2`, and the
handle is open on the active file. -/
def ringSys : Sys :=
  { fs := { dir := fun p =>
              if p = "log.txt" then some 0
              else if p = "log.txt.01" then some 1
              else if p = "log.txt.02" then some 2 else none,
            data := fun i => if i = 0 then "new" else if i = 1 then "old1" else "old2",
            next := 3 },
    tick := 7, stdout := [], lockCount := 0, msgTypeShowList := msgTypeShowList0,
    cLogCfg := exCfg, fileRD := some 0 }

/-- A state late in a run with the configuration of `main`: the active file
holds `new` and all four backups exist, `04` the oldest. -/
def fullSys : Sys :=
  { fs := { dir := fun p =>
              if p = "log.txt" then some 0
              else if p = "log.txt.01" then some 1
              else if p = "log.txt.02" then some 2
              else if p = "log.txt.03" then some 3
              else if p = "log.txt.04" then some 4 else none,
            data := fun i =>
              if i = 0 then "new" else if i = 1 then "old1" else if i = 2 then "old2"
              else if i = 3 then "old3" else "old4",
            next := 5 },
    tick := 7, stdout := [], lockCount := 0, msgTypeShowList := msgTypeShowList0,
    cLogCfg := exCfg, fileRD := some 0 }

/-! ## Names of the rotated files -/

theorem digitsVal_append (l : List Char) (c : Char) :
    digitsVal (l ++ [c]) = digitsVal l * 10 + (c.toNat - 48) := by
  simp [digitsVal, List.foldl_append]

theorem digit_toNat (d : Nat) (h : d < 10) : (Char.ofNat (48 + d)).toNat - 48 = d := by
  interval_cases d <;> rfl

theorem digitsVal_decDigits : ∀ (count n : Nat), n < count → digitsVal (decDigits count n) = n
  | 0, n, h => by omega
  | count + 1, n, h => by
    unfold decDigits
    split
    · rename_i h10
      simp [digitsVal, digit_toNat n h10]
    · rename_i h10
      rw [digitsVal_append, digitsVal_decDigits count (n / 10) (by omega),
        digit_toNat _ (Nat.mod_lt _ (by decide))]
      omega

theorem digitsVal_replicate_zero (k : Nat) (l : List Char) :
    digitsVal (List.replicate k '0' ++ l) = digitsVal l := by
  unfold digitsVal
  induction k with
  | zero => simp
  | succ k ih =>
    simp only [List.replicate_succ, List.cons_append, List.foldl_cons]
    exact ih

theorem digitsVal_fmtInteger (wid n : Nat) : digitsVal (fmtInteger true wid (n : Int)) = n := by
  unfold fmtInteger
  have h0 : ¬ ((n : Int) < 0) := by omega
  simp only [h0, if_false, if_true, List.nil_append, Int.natAbs_ofNat]
  rw [digitsVal_replicate_zero]
  exact digitsVal_decDigits _ _ (by omega)

theorem doPrintf_rotateFmt (path : String) (num : Nat) :
    doPrintf 8 ['%', 's', '.', '%', '0', '2', 'd'] [.str path, .int num]
      = some (path.data ++ '.' :: fmtInteger true 2 (num : Int)) := by
  simp [doPrintf, takeZeros, parsenum, printArg, extraArgs, Char.isDigit]

theorem rotatePath_data (path : String) (num : Nat) :
    (rotatePath path num).data = path.data ++ '.' :: fmtInteger true 2 (num : Int) := by
  have h : rotatePath path num
      = match doPrintf 8 ['%', 's', '.', '%', '0', '2', 'd'] [.str path, .int num] with
        | some r => String.mk r
        | none => "" := rfl
  rw [h, doPrintf_rotateFmt]

theorem rotatePath_inj (path : String) (n m : Nat) (h : rotatePath path n = rotatePath path m) :
    n = m := by
  have hd := congrArg String.data h
  rw [rotatePath_data, rotatePath_data] at hd
  have h2 := List.append_cancel_left hd
  have h3 : fmtInteger true 2 (n : Int) = fmtInteger true 2 (m : Int) := (List.cons.inj h2).2
  have h4 := congrArg digitsVal h3
  rwa [digitsVal_fmtInteger, digitsVal_fmtInteger] at h4

theorem rotatePath_ne_self (path : String) (n : Nat) : rotatePath path n ≠ path := by
  intro h
  have hd := congrArg (fun t => t.data.length) h
  simp only [rotatePath_data, List.length_append, List.length_cons] at hd
  omega

/-- A format without `%` and without operands is printed as it is. -/
theorem doPrintf_plain : ∀ (l : List Char) (fuel : Nat), l.length < fuel → '%' ∉ l →
    doPrintf fuel l [] = some l
  | [], fuel, hlen, _ => by
    obtain ⟨n, rfl⟩ : ∃ n, fuel = n + 1 := ⟨fuel - 1, by omega⟩
    rfl
  | c :: cs, fuel, hlen, hmem => by
    obtain ⟨n, rfl⟩ : ∃ n, fuel = n + 1 := ⟨fuel - 1, by simp at hlen; omega⟩
    have hc : c ≠ '%' := fun h => hmem (by rw [h]; exact List.mem_cons_self _ _)
    have hcs : '%' ∉ cs := fun h => hmem (List.mem_cons_of_mem _ h)
    have ih := doPrintf_plain cs n (by simp at hlen; omega) hcs
    rw [doPrintf]
    · rw [ih]; rfl
    · intro h
      exact hc h

theorem goSprintf_plain (f : String) (h : '%' ∉ f.data) : goSprintf f [] = f := by
  unfold goSprintf
  rw [doPrintf_plain f.data (f.length + 1) (Nat.lt_succ_self _) h]

/-! ## What the search and the shift leave alone -/

theorem SlotsOnly.refl (base : String) (s : Sys) : SlotsOnly base s s :=
  ⟨rfl, rfl, rfl, rfl, rfl, rfl, Nat.le_refl _, fun _ _ => rfl, fun p i h => ⟨p, h⟩⟩

theorem SlotsOnly.trans {base : String} {s t u : Sys} (h1 : SlotsOnly base s t)
    (h2 : SlotsOnly base t u) : SlotsOnly base s u where
  data := h2.data.trans h1.data
  next := h2.next.trans h1.next
  cfg := h2.cfg.trans h1.cfg
  handle := h2.handle.trans h1.handle
  shown := h2.shown.trans h1.shown
  locks := h2.locks.trans h1.locks
  ticks := Nat.le_trans h1.ticks h2.ticks
  other := fun p hp => (h2.other p hp).trans (h1.other p hp)
  named := fun p i h => by
    obtain ⟨q, hq⟩ := h2.named p i h
    exact h1.named q i hq

theorem SlotsOnly.wf {base : String} {s t : Sys} (h : SlotsOnly base s t) (hwf : s.fs.wf) :
    t.fs.wf := by
  intro p i hp
  obtain ⟨q, hq⟩ := h.named p i hp
  rw [h.next]
  exact hwf q i hq

@[simp] theorem PrintMsg_fs (env : Env) (c : Caller) (msgType : MsgType) (msgFmt : String)
    (msgArg : List Arg) (s : Sys) : (PrintMsg env c msgType msgFmt msgArg s).fs = s.fs := by
  unfold PrintMsg; split <;> rfl

@[simp] theorem PrintMsg_cLogCfg (env : Env) (c : Caller) (msgType : MsgType) (msgFmt : String)
    (msgArg : List Arg) (s : Sys) :
    (PrintMsg env c msgType msgFmt msgArg s).cLogCfg = s.cLogCfg := by
  unfold PrintMsg; split <;> rfl

@[simp] theorem PrintMsg_fileRD (env : Env) (c : Caller) (msgType : MsgType) (msgFmt : String)
    (msgArg : List Arg) (s : Sys) :
    (PrintMsg env c msgType msgFmt msgArg s).fileRD = s.fileRD := by
  unfold PrintMsg; split <;> rfl

@[simp] theorem PrintMsg_msgTypeShowList (env : Env) (c : Caller) (msgType : MsgType)
    (msgFmt : String) (msgArg : List Arg) (s : Sys) :
    (PrintMsg env c msgType msgFmt msgArg s).msgTypeShowList = s.msgTypeShowList := by
  unfold PrintMsg; split <;> rfl

@[simp] theorem PrintMsg_lockCount (env : Env) (c : Caller) (msgType : MsgType) (msgFmt : String)
    (msgArg : List Arg) (s : Sys) :
    (PrintMsg env c msgType msgFmt msgArg s).lockCount = s.lockCount := by
  unfold PrintMsg; split <;> rfl

@[simp] theorem PrintMsg_tick (env : Env) (c : Caller) (msgType : MsgType) (msgFmt : String)
    (msgArg : List Arg) (s : Sys) : (PrintMsg env c msgType msgFmt msgArg s).tick = s.tick := by
  unfold PrintMsg; split <;> rfl

theorem PrintMsg_slotsOnly (env : Env) (base : String) (c : Caller) (msgType : MsgType)
    (msgFmt : String) (msgArg : List Arg) (s : Sys) :
    SlotsOnly base s (PrintMsg env c msgType msgFmt msgArg s) := by
  unfold PrintMsg
  split
  · exact ⟨rfl, rfl, rfl, rfl, rfl, rfl, Nat.le_refl _, fun _ _ => rfl, fun p i h => ⟨p, h⟩⟩
  · exact SlotsOnly.refl base s

theorem osStat_state (env : Env) (path : String) (s : Sys) :
    (osStat env path s).1 = { s with tick := s.tick + 1 } := by
  unfold osStat
  split
  · rfl
  · split <;> rfl

theorem tick_slotsOnly (base : String) (s : Sys) (n : Nat) :
    SlotsOnly base s { s with tick := s.tick + n } :=
  ⟨rfl, rfl, rfl, rfl, rfl, rfl, Nat.le_add_right _ _, fun _ _ => rfl, fun p i h => ⟨p, h⟩⟩

theorem checkFileExist_slotsOnly (env : Env) (base path : String) (s : Sys) :
    SlotsOnly base s (checkFileExist env path s).1 := by
  unfold checkFileExist
  have hs := osStat_state env path s
  rcases hstat : osStat env path s with ⟨s1, r⟩
  rw [hstat] at hs
  simp only at hs
  subst hs
  cases r with
  | ok v => exact tick_slotsOnly base s 1
  | error e =>
    simp only
    split
    · exact tick_slotsOnly base s 1
    · exact (tick_slotsOnly base s 1).trans (PrintMsg_slotsOnly ..)

theorem osRemove_slotsOnly (env : Env) (base : String) (k : Nat) (s : Sys) :
    SlotsOnly base s (osRemove env (rotatePath base k) s).1 := by
  unfold osRemove
  split
  · exact tick_slotsOnly base s 1
  · split
    · exact tick_slotsOnly base s 1
    · refine ⟨rfl, rfl, rfl, rfl, rfl, rfl, Nat.le_add_right _ _, ?_, ?_⟩
      · intro p hp
        simp [setDir, hp k]
      · intro p i h
        simp only [setDir] at h
        split at h
        · cases h
        · exact ⟨p, h⟩

theorem osRename_slotsOnly (env : Env) (base : String) (j k : Nat) (s : Sys) :
    SlotsOnly base s (osRename env (rotatePath base j) (rotatePath base k) s).1 := by
  unfold osRename
  split
  · exact tick_slotsOnly base s 1
  · split
    · exact tick_slotsOnly base s 1
    · rename_i i0 hi
      split
      · exact tick_slotsOnly base s 1
      · refine ⟨rfl, rfl, rfl, rfl, rfl, rfl, Nat.le_add_right _ _, ?_, ?_⟩
        · intro p hp
          simp [setDir, hp k, hp j]
        · intro p i' h
          simp only [setDir] at h
          split at h
          · cases h
          · split at h
            · cases h
              exact ⟨_, hi⟩
            · exact ⟨p, h⟩

theorem findUsable_slotsOnly (env : Env) :
    ∀ (gap usableNum : Nat) (s : Sys),
      SlotsOnly s.cLogCfg.OutputFilePath s (findUsable env gap usableNum s).1 := by
  intro gap
  induction gap with
  | zero =>
    intro u s
    unfold findUsable
    dsimp only
    have hc := checkFileExist_slotsOnly env s.cLogCfg.OutputFilePath
      (rotatePath s.cLogCfg.OutputFilePath u) s
    rcases hchk : checkFileExist env (rotatePath s.cLogCfg.OutputFilePath u) s with ⟨s1, b, e⟩
    rw [hchk] at hc
    simp only at hc
    cases e with
    | some e =>
      simp only
      exact hc.trans (PrintMsg_slotsOnly ..)
    | none =>
      cases b with
      | false => exact hc
      | true =>
        simp only
        split
        · have hr := osRemove_slotsOnly env s.cLogCfg.OutputFilePath u s1
          rcases hrm : osRemove env (rotatePath s.cLogCfg.OutputFilePath u) s1 with ⟨s2, e2⟩
          rw [hrm] at hr
          cases e2 with
          | some e2 => exact hc.trans (hr.trans (PrintMsg_slotsOnly ..))
          | none => exact hc.trans hr
        · exact hc
  | succ gap ih =>
    intro u s
    unfold findUsable
    dsimp only
    have hc := checkFileExist_slotsOnly env s.cLogCfg.OutputFilePath
      (rotatePath s.cLogCfg.OutputFilePath u) s
    rcases hchk : checkFileExist env (rotatePath s.cLogCfg.OutputFilePath u) s with ⟨s1, b, e⟩
    rw [hchk] at hc
    simp only at hc
    cases e with
    | some e =>
      simp only
      exact hc.trans (PrintMsg_slotsOnly ..)
    | none =>
      cases b with
      | false => exact hc
      | true =>
        simp only
        split
        · have hr := osRemove_slotsOnly env s.cLogCfg.OutputFilePath u s1
          rcases hrm : osRemove env (rotatePath s.cLogCfg.OutputFilePath u) s1 with ⟨s2, e2⟩
          rw [hrm] at hr
          cases e2 with
          | some e2 => exact hc.trans (hr.trans (PrintMsg_slotsOnly ..))
          | none => exact hc.trans hr
        · have h1 := ih (u + 1) s1
          rw [hc.cfg] at h1
          exact hc.trans h1

theorem checkFileExist_tick (env : Env) (path : String) (s : Sys) :
    (checkFileExist env path s).1.tick = s.tick + 1 := by
  unfold checkFileExist
  have hs := osStat_state env path s
  rcases hstat : osStat env path s with ⟨s1, r⟩
  rw [hstat] at hs
  simp only at hs
  subst hs
  cases r with
  | ok v => rfl
  | error e =>
    simp only
    split
    · rfl
    · simp

/-- The search makes at least one file-system call. -/
theorem findUsable_tick (env : Env) (gap usableNum : Nat) (s : Sys) :
    s.tick < (findUsable env gap usableNum s).1.tick := by
  have hfrom : SlotsOnly s.cLogCfg.OutputFilePath
      (checkFileExist env (rotatePath s.cLogCfg.OutputFilePath usableNum) s).1
      (findUsable env gap usableNum s).1 := by
    have hc := checkFileExist_slotsOnly env s.cLogCfg.OutputFilePath
      (rotatePath s.cLogCfg.OutputFilePath usableNum) s
    cases gap with
    | zero =>
      unfold findUsable
      dsimp only
      rcases hchk : checkFileExist env (rotatePath s.cLogCfg.OutputFilePath usableNum) s
        with ⟨s1, b, e⟩
      rw [hchk] at hc
      simp only at hc
      cases e with
      | some e =>
        simp only
        exact PrintMsg_slotsOnly ..
      | none =>
        cases b with
        | false => exact SlotsOnly.refl _ _
        | true =>
          simp only
          split
          · have hr := osRemove_slotsOnly env s.cLogCfg.OutputFilePath usableNum s1
            rcases hrm : osRemove env (rotatePath s.cLogCfg.OutputFilePath usableNum) s1
              with ⟨s2, e2⟩
            rw [hrm] at hr
            cases e2 with
            | some e2 => exact hr.trans (PrintMsg_slotsOnly ..)
            | none => exact hr
          · exact SlotsOnly.refl _ _
    | succ gap =>
      unfold findUsable
      dsimp only
      rcases hchk : checkFileExist env (rotatePath s.cLogCfg.OutputFilePath usableNum) s
        with ⟨s1, b, e⟩
      rw [hchk] at hc
      simp only at hc
      cases e with
      | some e =>
        simp only
        exact PrintMsg_slotsOnly ..
      | none =>
        cases b with
        | false => exact SlotsOnly.refl _ _
        | true =>
          simp only
          split
          · have hr := osRemove_slotsOnly env s.cLogCfg.OutputFilePath usableNum s1
            rcases hrm : osRemove env (rotatePath s.cLogCfg.OutputFilePath usableNum) s1
              with ⟨s2, e2⟩
            rw [hrm] at hr
            cases e2 with
            | some e2 => exact hr.trans (PrintMsg_slotsOnly ..)
            | none => exact hr
          · have h1 := findUsable_slotsOnly env gap (usableNum + 1) s1
            rw [hc.cfg] at h1
            exact h1
  have h1 := hfrom.ticks
  rw [checkFileExist_tick] at h1
  omega

theorem shiftKept_slotsOnly_succ (env : Env) :
    ∀ (n : Nat) (s : Sys),
      SlotsOnly s.cLogCfg.OutputFilePath s (shiftKept env (n + 1) s).1 := by
  intro n
  induction n with
  | zero => intro s; exact SlotsOnly.refl _ s
  | succ n ih =>
    intro s
    unfold shiftKept
    dsimp only
    have hr := osRename_slotsOnly env s.cLogCfg.OutputFilePath (n + 1) (n + 2) s
    rcases hrn : osRename env (rotatePath s.cLogCfg.OutputFilePath (n + 1))
        (rotatePath s.cLogCfg.OutputFilePath (n + 2)) s with ⟨s1, e⟩
    rw [hrn] at hr
    simp only at hr
    cases e with
    | some e =>
      simp only
      exact hr.trans (PrintMsg_slotsOnly ..)
    | none =>
      simp only
      have h1 := ih s1
      rw [hr.cfg] at h1
      exact hr.trans h1

theorem shiftKept_slotsOnly (env : Env) (usableNum : Nat) (s : Sys) :
    SlotsOnly s.cLogCfg.OutputFilePath s (shiftKept env usableNum s).1 := by
  cases usableNum with
  | zero => exact SlotsOnly.refl _ s
  | succ n => exact shiftKept_slotsOnly_succ env n s

/-- What the last steps of a rotation do, whatever the file system does. -/
theorem moveActive_spec (env : Env) (u : Nat) (s : Sys) :
    (moveActive env u s).1.cLogCfg = s.cLogCfg
    ∧ (moveActive env u s).1.msgTypeShowList = s.msgTypeShowList
    ∧ (moveActive env u s).1.lockCount = s.lockCount
    ∧ (s.fs.wf → (moveActive env u s).1.fs.wf)
    ∧ (∀ e, (moveActive env u s).2 = some e →
        (moveActive env u s).1.fs.data = s.fs.data ∧ (moveActive env u s).1.fileRD = none)
    ∧ ((moveActive env u s).2 = none →
        (moveActive env u s).1.fileRD = some s.fs.next
        ∧ (moveActive env u s).1.fs.dir s.cLogCfg.OutputFilePath = some s.fs.next
        ∧ (moveActive env u s).1.fs.data s.fs.next = ""
        ∧ (moveActive env u s).1.fs.next = s.fs.next + 1
        ∧ (∀ i, i ≠ s.fs.next → (moveActive env u s).1.fs.data i = s.fs.data i)
        ∧ (moveActive env u s).1.fs.dir (rotatePath s.cLogCfg.OutputFilePath u)
            = s.fs.dir s.cLogCfg.OutputFilePath
        ∧ (s.fs.dir s.cLogCfg.OutputFilePath).isSome
        ∧ ∀ p, p ≠ s.cLogCfg.OutputFilePath → p ≠ rotatePath s.cLogCfg.OutputFilePath u →
            (moveActive env u s).1.fs.dir p = s.fs.dir p) := by
  have hne : s.cLogCfg.OutputFilePath ≠ rotatePath s.cLogCfg.OutputFilePath u :=
    fun h => rotatePath_ne_self _ u h.symm
  unfold moveActive osRename
  dsimp only
  by_cases hfault : env.fault s.tick = true
  · simp [hfault]
  · simp only [hfault]
    cases hdir : s.fs.dir s.cLogCfg.OutputFilePath with
    | none => simp
    | some a =>
      simp only [hne, if_false, Bool.false_eq_true]
      unfold osOpenFile
      dsimp only
      by_cases hfault2 : env.fault (s.tick + 1) = true
      · simp [hfault2]
        intro hwf p i hp
        simp only [setDir] at hp
        split at hp
        · cases hp
        · split at hp
          · cases hp
            exact hwf _ _ hdir
          · exact hwf _ _ hp
      · simp only [hfault2, setDir, if_true, Bool.false_eq_true, if_false]
        simp [setData, setDir, hne.symm]
        refine ⟨?_, ?_, ?_⟩
        · intro hwf p i hp
          simp only [setDir] at hp
          show i < s.fs.next + 1
          split at hp
          · cases hp; omega
          · split at hp
            · cases hp
              have := hwf _ _ hdir
              omega
            · have := hwf _ _ hp
              omega
        · intro i hi
          simp [hi]
        · intro p hp1 hp2
          simp [hp1, hp2]

/-- What a rotation does to the package state, whatever the file system does:
the configuration, the visibility flags and the lock are as before; after an
error no file has new contents, and the handle is nil or still the handle it
was, with the active path naming the file it named; after a success the handle
is a new, empty file under the active path. -/
theorem rotateFiles_spec (env : Env) (s : Sys) :
    (rotateFiles env s).1.cLogCfg = s.cLogCfg
    ∧ (rotateFiles env s).1.msgTypeShowList = s.msgTypeShowList
    ∧ (rotateFiles env s).1.lockCount = s.lockCount
    ∧ (s.fs.wf → (rotateFiles env s).1.fs.wf)
    ∧ (∀ e, (rotateFiles env s).2 = some e →
        (rotateFiles env s).1.fs.data = s.fs.data
        ∧ ((rotateFiles env s).1.fileRD = none
          ∨ ((rotateFiles env s).1.fileRD = s.fileRD
            ∧ (rotateFiles env s).1.fs.dir s.cLogCfg.OutputFilePath
                = s.fs.dir s.cLogCfg.OutputFilePath)))
    ∧ ((rotateFiles env s).2 = none →
        (rotateFiles env s).1.fileRD = some s.fs.next
        ∧ (rotateFiles env s).1.fs.dir s.cLogCfg.OutputFilePath = some s.fs.next
        ∧ (rotateFiles env s).1.fs.data s.fs.next = ""
        ∧ (rotateFiles env s).1.fs.next = s.fs.next + 1
        ∧ ∀ i, i ≠ s.fs.next → (rotateFiles env s).1.fs.data i = s.fs.data i) := by
  unfold rotateFiles
  have hf := findUsable_slotsOnly env s.cLogCfg.RotateCnt.toNat 1 s
  rcases hfu : findUsable env s.cLogCfg.RotateCnt.toNat 1 s with ⟨s1, u, e⟩
  rw [hfu] at hf
  simp only at hf
  have hbase : ∀ k, s.cLogCfg.OutputFilePath ≠ rotatePath s.cLogCfg.OutputFilePath k :=
    fun k h => rotatePath_ne_self _ k h.symm
  cases e with
  | some e =>
    simp only
    exact ⟨hf.cfg, hf.shown, hf.locks, hf.wf, fun _ _ => ⟨hf.data, Or.inr ⟨hf.handle, hf.other _ hbase⟩⟩,
      fun h => by cases h⟩
  | none =>
    simp only
    have hk := shiftKept_slotsOnly env u s1
    rw [hf.cfg] at hk
    rcases hsk : shiftKept env u s1 with ⟨s2, u2, e⟩
    rw [hsk] at hk
    simp only at hk
    have h02 := hf.trans hk
    cases e with
    | some e =>
      simp only
      exact ⟨h02.cfg, h02.shown, h02.locks, h02.wf,
        fun _ _ => ⟨h02.data, Or.inr ⟨h02.handle, h02.other _ hbase⟩⟩, fun h => by cases h⟩
    | none =>
      simp only
      obtain ⟨m1, m2, m3, m4, m5, m6⟩ := moveActive_spec env u2 s2
      rw [h02.cfg] at m6
      refine ⟨m1.trans h02.cfg, m2.trans h02.shown, m3.trans h02.locks, fun hwf => m4 (h02.wf hwf),
        ?_, ?_⟩
      · intro e he
        obtain ⟨d1, d2⟩ := m5 e he
        exact ⟨d1.trans h02.data, Or.inl d2⟩
      · intro he
        obtain ⟨a1, a2, a3, a4, a5, _⟩ := m6 he
        rw [h02.next] at a1 a2 a3 a4 a5
        rw [h02.data] at a5
        exact ⟨a1, a2, a3, a4, a5⟩

/-- The size check of `doRotate`: with a successful `os.Stat` and below the
threshold nothing more is done, otherwise the rotation runs. -/
theorem doRotate_of_stat (env : Env) (msgLen : Nat) (s : Sys) (i : Nat)
    (hfault : env.fault s.tick = false) (hdir : s.fs.dir s.cLogCfg.OutputFilePath = some i) :
    doRotate env msgLen s =
      if wrapInt64 ((msgLen : Int) + ((s.fs.data i).utf8ByteSize : Int)) < s.cLogCfg.RotateSize
      then ({ s with tick := s.tick + 1 }, none)
      else rotateFiles env { s with tick := s.tick + 1 } := by
  unfold doRotate osStat
  simp [hfault, hdir]

theorem doRotate_of_stat_fault (env : Env) (msgLen : Nat) (s : Sys)
    (hfault : env.fault s.tick = true) :
    (doRotate env msgLen s).2 = some (ioError "stat" s.cLogCfg.OutputFilePath)
    ∧ (doRotate env msgLen s).1.fs = s.fs ∧ (doRotate env msgLen s).1.fileRD = s.fileRD
    ∧ (doRotate env msgLen s).1.cLogCfg = s.cLogCfg
    ∧ (doRotate env msgLen s).1.msgTypeShowList = s.msgTypeShowList
    ∧ (doRotate env msgLen s).1.lockCount = s.lockCount := by
  unfold doRotate osStat
  simp [hfault]

theorem doRotate_of_stat_missing (env : Env) (msgLen : Nat) (s : Sys)
    (hfault : env.fault s.tick = false) (hdir : s.fs.dir s.cLogCfg.OutputFilePath = none) :
    (doRotate env msgLen s).2 = some (notExistError "stat" s.cLogCfg.OutputFilePath)
    ∧ (doRotate env msgLen s).1.fs = s.fs ∧ (doRotate env msgLen s).1.fileRD = s.fileRD
    ∧ (doRotate env msgLen s).1.cLogCfg = s.cLogCfg
    ∧ (doRotate env msgLen s).1.msgTypeShowList = s.msgTypeShowList
    ∧ (doRotate env msgLen s).1.lockCount = s.lockCount := by
  unfold doRotate osStat
  simp [hfault, hdir]

/-- What `doRotate` does to the package state, whatever the file system does. -/
theorem doRotate_spec (env : Env) (msgLen : Nat) (s : Sys) :
    (doRotate env msgLen s).1.cLogCfg = s.cLogCfg
    ∧ (doRotate env msgLen s).1.msgTypeShowList = s.msgTypeShowList
    ∧ (doRotate env msgLen s).1.lockCount = s.lockCount
    ∧ (s.fs.wf → (doRotate env msgLen s).1.fs.wf)
    ∧ (∀ e, (doRotate env msgLen s).2 = some e →
        (doRotate env msgLen s).1.fs.data = s.fs.data
        ∧ ((doRotate env msgLen s).1.fileRD = none
          ∨ ((doRotate env msgLen s).1.fileRD = s.fileRD
            ∧ (doRotate env msgLen s).1.fs.dir s.cLogCfg.OutputFilePath
                = s.fs.dir s.cLogCfg.OutputFilePath)))
    ∧ ((doRotate env msgLen s).2 = none →
        ((doRotate env msgLen s).1.fs = s.fs ∧ (doRotate env msgLen s).1.fileRD = s.fileRD
          ∧ ∃ i, s.fs.dir s.cLogCfg.OutputFilePath = some i
            ∧ wrapInt64 ((msgLen : Int) + ((s.fs.data i).utf8ByteSize : Int))
                < s.cLogCfg.RotateSize)
        ∨ ((doRotate env msgLen s).1.fileRD = some s.fs.next
          ∧ (doRotate env msgLen s).1.fs.dir s.cLogCfg.OutputFilePath = some s.fs.next
          ∧ (doRotate env msgLen s).1.fs.data s.fs.next = ""
          ∧ (doRotate env msgLen s).1.fs.next = s.fs.next + 1
          ∧ ∀ i, i ≠ s.fs.next → (doRotate env msgLen s).1.fs.data i = s.fs.data i)) := by
  by_cases hfault : env.fault s.tick = true
  · obtain ⟨h1, h2, h3, h4, h5, h6⟩ := doRotate_of_stat_fault env msgLen s hfault
    refine ⟨h4, h5, h6, fun hwf => by rw [h2]; exact hwf, fun e _ => ?_, fun he => ?_⟩
    · rw [h2, h3]
      exact ⟨rfl, Or.inr ⟨rfl, rfl⟩⟩
    · rw [h1] at he; cases he
  · have hfault : env.fault s.tick = false := by simpa using hfault
    cases hdir : s.fs.dir s.cLogCfg.OutputFilePath with
    | none =>
      obtain ⟨h1, h2, h3, h4, h5, h6⟩ := doRotate_of_stat_missing env msgLen s hfault hdir
      refine ⟨h4, h5, h6, fun hwf => by rw [h2]; exact hwf, fun e _ => ?_, fun he => ?_⟩
      · rw [h2, h3]
        exact ⟨rfl, Or.inr ⟨rfl, hdir⟩⟩
      · rw [h1] at he; cases he
    | some i =>
      rw [doRotate_of_stat env msgLen s i hfault hdir]
      split
      · rename_i hlt
        exact ⟨rfl, rfl, rfl, fun hwf => hwf, fun e he => (by cases he),
          fun _ => Or.inl ⟨rfl, rfl, i, rfl, hlt⟩⟩
      · obtain ⟨r1, r2, r3, r4, r5, r6⟩ := rotateFiles_spec env { s with tick := s.tick + 1 }
        refine ⟨r1, r2, r3, r4, ?_, fun he => Or.inr (r6 he)⟩
        intro e he
        obtain ⟨d1, d2⟩ := r5 e he
        refine ⟨d1, ?_⟩
        rcases d2 with d2 | ⟨d2, d3⟩
        · exact Or.inl d2
        · exact Or.inr ⟨d2, d3.trans hdir⟩

/-! ## A rotation on a file system that does not fail -/

theorem checkFileExist_noFault (env : Env) (path : String) (s : Sys)
    (hf : env.fault s.tick = false) :
    checkFileExist env path s = ({ s with tick := s.tick + 1 }, (s.fs.dir path).isSome, none) := by
  unfold checkFileExist osStat
  simp only [hf, Bool.false_eq_true, if_false]
  cases hdir : s.fs.dir path with
  | none => simp [notExistError]
  | some i => simp

theorem setDir_none_of_none (dir : String → Option Nat) (path : String) (h : dir path = none) :
    setDir dir path none = dir := by
  funext q
  unfold setDir
  split
  · rename_i hq
    rw [hq, h]
  · rfl

/-- The search when no call from now on fails: it stops at the first
number `U` from `usableNum` on that is free or has reached `RotateCnt`, and the
file of that number is gone afterwards. -/
theorem findUsable_noFault (env : Env) :
    ∀ (gap usableNum : Nat) (s : Sys), (∀ n, s.tick ≤ n → env.fault n = false) →
      s.cLogCfg.RotateCnt ≤ ((usableNum + gap : Nat) : Int) →
      ∃ (U : Nat) (t : Sys), findUsable env gap usableNum s = (t, U, none)
        ∧ usableNum ≤ U
        ∧ (∀ k, usableNum ≤ k → k < U →
            (s.fs.dir (rotatePath s.cLogCfg.OutputFilePath k)).isSome = true
              ∧ (k : Int) < s.cLogCfg.RotateCnt)
        ∧ (s.fs.dir (rotatePath s.cLogCfg.OutputFilePath U) = none
            ∨ s.cLogCfg.RotateCnt ≤ (U : Int))
        ∧ t.fs.dir = setDir s.fs.dir (rotatePath s.cLogCfg.OutputFilePath U) none
        ∧ t.stdout = s.stdout
        ∧ SlotsOnly s.cLogCfg.OutputFilePath s t := by
  intro gap
  induction gap with
  | zero =>
    intro u s hnf hgap
    have hf1 : env.fault (s.tick + 1) = false := hnf _ (Nat.le_succ _)
    unfold findUsable
    dsimp only
    rw [checkFileExist_noFault env _ s (hnf _ (Nat.le_refl _))]
    cases hdir : s.fs.dir (rotatePath s.cLogCfg.OutputFilePath u) with
    | none =>
      simp only [Option.isSome_none]
      exact ⟨u, _, rfl, Nat.le_refl _, fun k h1 h2 => by omega, Or.inl hdir,
        (setDir_none_of_none _ _ hdir).symm, rfl, tick_slotsOnly _ s 1⟩
    | some i =>
      have hle : s.cLogCfg.RotateCnt ≤ (u : Int) := by simpa using hgap
      simp only [Option.isSome_some, hle, if_true]
      unfold osRemove
      simp only [hf1, Bool.false_eq_true, if_false, hdir]
      refine ⟨u, _, rfl, Nat.le_refl _, fun k h1 h2 => by omega, Or.inr hle, rfl, rfl, ?_⟩
      have h1 := osRemove_slotsOnly env s.cLogCfg.OutputFilePath u { s with tick := s.tick + 1 }
      unfold osRemove at h1
      simp only [hf1, Bool.false_eq_true, if_false, hdir] at h1
      exact (tick_slotsOnly _ s 1).trans h1
  | succ gap ih =>
    intro u s hnf hgap
    have hf1 : env.fault (s.tick + 1) = false := hnf _ (Nat.le_succ _)
    unfold findUsable
    dsimp only
    rw [checkFileExist_noFault env _ s (hnf _ (Nat.le_refl _))]
    cases hdir : s.fs.dir (rotatePath s.cLogCfg.OutputFilePath u) with
    | none =>
      simp only [Option.isSome_none]
      exact ⟨u, _, rfl, Nat.le_refl _, fun k h1 h2 => by omega, Or.inl hdir,
        (setDir_none_of_none _ _ hdir).symm, rfl, tick_slotsOnly _ s 1⟩
    | some i =>
      simp only [Option.isSome_some]
      by_cases hle : s.cLogCfg.RotateCnt ≤ (u : Int)
      · simp only [hle, if_true]
        unfold osRemove
        simp only [hf1, Bool.false_eq_true, if_false, hdir]
        refine ⟨u, _, rfl, Nat.le_refl _, fun k h1 h2 => by omega, Or.inr hle, rfl, rfl, ?_⟩
        have h1 := osRemove_slotsOnly env s.cLogCfg.OutputFilePath u { s with tick := s.tick + 1 }
        unfold osRemove at h1
        simp only [hf1, Bool.false_eq_true, if_false, hdir] at h1
        exact (tick_slotsOnly _ s 1).trans h1
      · simp only [hle, if_false]
        obtain ⟨U, t, h1, h2, h3, h4, h5, h6, h7⟩ :=
          ih (u + 1) { s with tick := s.tick + 1 } (fun n hn => hnf n (Nat.le_of_succ_le hn))
            (by push_cast at hgap ⊢; omega)
        refine ⟨U, t, h1, by omega, ?_, h4, h5, h6, (tick_slotsOnly _ s 1).trans h7⟩
        intro k hk1 hk2
        by_cases hku : k = u
        · subst hku
          exact ⟨by simp [hdir], by omega⟩
        · exact h3 k (by omega) hk2

theorem rotatePath_eq_iff (path : String) (n m : Nat) :
    rotatePath path n = rotatePath path m ↔ n = m :=
  ⟨rotatePath_inj path n m, fun h => by rw [h]⟩

/-- The shift when no call from now on fails and the files numbered
`1` to `n` exist: each of them moves up by one number. -/
theorem shiftKept_noFault (env : Env) :
    ∀ (n : Nat) (s : Sys), (∀ m, s.tick ≤ m → env.fault m = false) →
      (∀ k, 1 ≤ k → k ≤ n → (s.fs.dir (rotatePath s.cLogCfg.OutputFilePath k)).isSome = true) →
      ∃ t : Sys, shiftKept env (n + 1) s = (t, 1, none)
        ∧ SlotsOnly s.cLogCfg.OutputFilePath s t
        ∧ t.stdout = s.stdout
        ∧ (∀ k, 1 ≤ k → k ≤ n →
            t.fs.dir (rotatePath s.cLogCfg.OutputFilePath (k + 1))
              = s.fs.dir (rotatePath s.cLogCfg.OutputFilePath k))
        ∧ (1 ≤ n → t.fs.dir (rotatePath s.cLogCfg.OutputFilePath 1) = none)
        ∧ (n = 0 → t.fs.dir = s.fs.dir)
        ∧ (∀ k, (k = 0 ∨ n + 1 < k) →
            t.fs.dir (rotatePath s.cLogCfg.OutputFilePath k)
              = s.fs.dir (rotatePath s.cLogCfg.OutputFilePath k)) := by
  intro n
  induction n with
  | zero =>
    intro s _ _
    exact ⟨s, rfl, SlotsOnly.refl _ s, rfl, fun k h1 h2 => by omega, fun h => by omega,
      fun _ => rfl, fun _ _ => rfl⟩
  | succ n ih =>
    intro s hnf hex
    have hsome := hex (n + 1) (by omega) (Nat.le_refl _)
    obtain ⟨i, hi⟩ := Option.isSome_iff_exists.mp hsome
    have hne : rotatePath s.cLogCfg.OutputFilePath (n + 1)
        ≠ rotatePath s.cLogCfg.OutputFilePath (n + 2) := by
      rw [Ne, rotatePath_eq_iff]; omega
    obtain ⟨s1, hs1⟩ : ∃ s1 : Sys, s1 = { s with
        tick := s.tick + 1,
        fs := { s.fs with
          dir := setDir
            (setDir s.fs.dir (rotatePath s.cLogCfg.OutputFilePath (n + 2)) (some i))
            (rotatePath s.cLogCfg.OutputFilePath (n + 1)) none } } := ⟨_, rfl⟩
    have hstep : osRename env (rotatePath s.cLogCfg.OutputFilePath (n + 1))
        (rotatePath s.cLogCfg.OutputFilePath (n + 2)) s = (s1, none) := by
      unfold osRename
      simp only [hnf _ (Nat.le_refl _), Bool.false_eq_true, if_false, hi, hne, hs1]
    have hso := osRename_slotsOnly env s.cLogCfg.OutputFilePath (n + 1) (n + 2) s
    rw [hstep] at hso
    have hcfg : s1.cLogCfg = s.cLogCfg := by rw [hs1]
    have hdir1 : ∀ k, k ≠ n + 1 → k ≠ n + 2 →
        s1.fs.dir (rotatePath s.cLogCfg.OutputFilePath k)
          = s.fs.dir (rotatePath s.cLogCfg.OutputFilePath k) := by
      intro k h1 h2
      rw [hs1]
      simp [setDir, rotatePath_eq_iff, h1, h2]
    have hdir2 : s1.fs.dir (rotatePath s.cLogCfg.OutputFilePath (n + 2)) = some i := by
      rw [hs1]
      simp [setDir, rotatePath_eq_iff]
    have hdir3 : s1.fs.dir (rotatePath s.cLogCfg.OutputFilePath (n + 1)) = none := by
      rw [hs1]
      simp [setDir]
    have htick : s1.tick = s.tick + 1 := by rw [hs1]
    obtain ⟨t, h1, h2, h3, h4, h5, h6, h7⟩ := ih s1 (fun m hm => hnf m (by omega)) (by
      intro k hk1 hk2
      rw [hcfg, hdir1 k (by omega) (by omega)]
      exact hex k hk1 (by omega))
    rw [hcfg] at h2 h4 h5 h7
    have hout : s1.stdout = s.stdout := by rw [hs1]
    refine ⟨t, ?_, hso.trans h2, h3.trans hout, ?_, ?_, fun h => by omega, ?_⟩
    · show shiftKept env (n + 2) s = _
      unfold shiftKept
      dsimp only
      rw [hstep]
      exact h1
    · intro k hk1 hk2
      by_cases hk : k = n + 1
      · subst hk
        rw [h7 (n + 2) (Or.inr (by omega)), hi, hdir2]
      · rw [h4 k hk1 (by omega)]
        exact hdir1 k hk (by omega)
    · intro _
      by_cases hn : 1 ≤ n
      · exact h5 hn
      · have hn0 : n = 0 := by omega
        rw [h6 hn0]
        subst hn0
        exact hdir3
    · intro k hk
      rw [h7 k (by omega)]
      exact hdir1 k (by omega) (by omega)

theorem moveActive_noFault (env : Env) (u : Nat) (s : Sys)
    (hnf : ∀ n, s.tick ≤ n → env.fault n = false)
    (hdir : (s.fs.dir s.cLogCfg.OutputFilePath).isSome = true) :
    (moveActive env u s).2 = none ∧ (moveActive env u s).1.stdout = s.stdout := by
  obtain ⟨i, hi⟩ := Option.isSome_iff_exists.mp hdir
  have hne : s.cLogCfg.OutputFilePath ≠ rotatePath s.cLogCfg.OutputFilePath u :=
    fun h => rotatePath_ne_self _ u h.symm
  unfold moveActive osRename
  dsimp only
  simp only [hnf _ (Nat.le_refl _), Bool.false_eq_true, if_false, hi, hne]
  unfold osOpenFile
  simp [hnf _ (Nat.le_succ _), setDir]

/-- A rotation none of whose calls fails, from a state whose active path
names the file `a`.  `U` is the number the search stops at. -/
theorem rotateFiles_noFault (env : Env) (s : Sys) (hnf : ∀ n, s.tick ≤ n → env.fault n = false)
    (a : Nat) (hdir : s.fs.dir s.cLogCfg.OutputFilePath = some a) :
    ∃ (U : Nat) (t : Sys), rotateFiles env s = (t, none)
      ∧ 1 ≤ U
      ∧ (∀ k, 1 ≤ k → k < U →
          (s.fs.dir (rotatePath s.cLogCfg.OutputFilePath k)).isSome = true
            ∧ (k : Int) < s.cLogCfg.RotateCnt)
      ∧ (s.fs.dir (rotatePath s.cLogCfg.OutputFilePath U) = none
          ∨ s.cLogCfg.RotateCnt ≤ (U : Int))
      ∧ t.fs.dir (rotatePath s.cLogCfg.OutputFilePath 1) = some a
      ∧ (∀ k, 1 ≤ k → k < U →
          t.fs.dir (rotatePath s.cLogCfg.OutputFilePath (k + 1))
            = s.fs.dir (rotatePath s.cLogCfg.OutputFilePath k))
      ∧ (∀ k, (k = 0 ∨ U < k) →
          t.fs.dir (rotatePath s.cLogCfg.OutputFilePath k)
            = s.fs.dir (rotatePath s.cLogCfg.OutputFilePath k))
      ∧ (∀ p, p ≠ s.cLogCfg.OutputFilePath → (∀ k, p ≠ rotatePath s.cLogCfg.OutputFilePath k) →
          t.fs.dir p = s.fs.dir p)
      ∧ t.fs.dir s.cLogCfg.OutputFilePath = some s.fs.next
      ∧ t.fileRD = some s.fs.next
      ∧ t.fs.data = setData s.fs.data s.fs.next ""
      ∧ t.fs.next = s.fs.next + 1
      ∧ t.cLogCfg = s.cLogCfg ∧ t.msgTypeShowList = s.msgTypeShowList
      ∧ t.lockCount = s.lockCount ∧ t.stdout = s.stdout := by
  have hbase : ∀ k, s.cLogCfg.OutputFilePath ≠ rotatePath s.cLogCfg.OutputFilePath k :=
    fun k h => rotatePath_ne_self _ k h.symm
  obtain ⟨U, s1, f1, f2, f3, f4, f5, f6, f7⟩ :=
    findUsable_noFault env s.cLogCfg.RotateCnt.toNat 1 s hnf (by push_cast; omega)
  obtain ⟨n, rfl⟩ : ∃ n, U = n + 1 := ⟨U - 1, by omega⟩
  have hd1 : ∀ k, k ≠ n + 1 → s1.fs.dir (rotatePath s.cLogCfg.OutputFilePath k)
      = s.fs.dir (rotatePath s.cLogCfg.OutputFilePath k) := by
    intro k hk
    rw [f5]
    simp [setDir, rotatePath_eq_iff, hk]
  obtain ⟨s2, g1, g2, g3, g4, g5, g6, g7⟩ := shiftKept_noFault env n s1
    (fun m hm => hnf m (Nat.le_trans f7.ticks hm)) (by
    intro k hk1 hk2
    rw [f7.cfg, hd1 k (by omega)]
    exact (f3 k hk1 (by omega)).1)
  rw [f7.cfg] at g2 g4 g5 g7
  have h02 := f7.trans g2
  have hact : s2.fs.dir s2.cLogCfg.OutputFilePath = some a := by
    rw [h02.cfg, h02.other _ hbase, hdir]
  obtain ⟨m1, m2, m3, _, _, m6⟩ := moveActive_spec env 1 s2
  obtain ⟨n1, n2⟩ := moveActive_noFault env 1 s2
    (fun m hm => hnf m (Nat.le_trans (f7.trans g2).ticks hm)) (by rw [hact]; rfl)
  obtain ⟨a1, a2, a3, a4, a5, a6, _, a8⟩ := m6 n1
  rw [h02.cfg] at a2 a6 a8
  rw [h02.next] at a1 a2 a3 a4 a5
  rw [h02.data] at a5
  rw [h02.cfg] at hact
  have hrun : rotateFiles env s = ((moveActive env 1 s2).1, none) := by
    unfold rotateFiles
    rw [f1]
    simp only
    rw [g1]
    simp only
    rw [← n1]
  refine ⟨n + 1, (moveActive env 1 s2).1, hrun, by omega, fun k h1 h2 => f3 k h1 h2, f4, ?_, ?_, ?_,
    ?_, a2, a1, ?_, a4, m1.trans h02.cfg, m2.trans h02.shown, m3.trans h02.locks,
    n2.trans (g3.trans f6)⟩
  · rw [a6, hact]
  · intro k hk1 hk2
    rw [a8 _ (fun h => hbase _ h.symm) (by rw [Ne, rotatePath_eq_iff]; omega),
      g4 k hk1 (by omega), hd1 k (by omega)]
  · intro k hk
    rw [a8 _ (fun h => hbase _ h.symm) (by rw [Ne, rotatePath_eq_iff]; omega),
      g7 k (by omega), hd1 k (by omega)]
  · intro p hp1 hp2
    rw [a8 p hp1 (hp2 1), h02.other p hp2]
  · funext i
    unfold setData
    split
    · rename_i hi
      rw [hi, a3]
    · rename_i hi
      exact a5 i hi

theorem osRename_tick (env : Env) (oldpath newpath : String) (s : Sys) :
    (osRename env oldpath newpath s).1.tick = s.tick + 1 := by
  unfold osRename
  dsimp only
  split
  · rfl
  · split
    · rfl
    · split <;> rfl

theorem osOpenFile_tick (env : Env) (path : String) (s : Sys) :
    (osOpenFile env path s).1.tick = s.tick + 1 := by
  unfold osOpenFile
  dsimp only
  split
  · rfl
  · split <;> rfl

theorem moveActive_tick (env : Env) (u : Nat) (s : Sys) :
    s.tick ≤ (moveActive env u s).1.tick := by
  unfold moveActive
  dsimp only
  have h1 := osRename_tick env s.cLogCfg.OutputFilePath (rotatePath s.cLogCfg.OutputFilePath u)
    { s with fileRD := none }
  rcases hrn : osRename env s.cLogCfg.OutputFilePath (rotatePath s.cLogCfg.OutputFilePath u)
    { s with fileRD := none } with ⟨s4, e⟩
  rw [hrn] at h1
  simp only at h1
  cases e with
  | some e =>
    simp only [PrintMsg_tick]
    omega
  | none =>
    simp only
    have h2 := osOpenFile_tick env s4.cLogCfg.OutputFilePath s4
    rcases hop : osOpenFile env s4.cLogCfg.OutputFilePath s4 with ⟨s5, r⟩
    rw [hop] at h2
    simp only at h2
    cases r with
    | error e =>
      simp only [PrintMsg_tick]
      omega
    | ok h =>
      simp only
      omega

/-- A rotation makes at least one file-system call. -/
theorem rotateFiles_tick (env : Env) (s : Sys) : s.tick < (rotateFiles env s).1.tick := by
  have hf := findUsable_tick env s.cLogCfg.RotateCnt.toNat 1 s
  have hf2 := findUsable_slotsOnly env s.cLogCfg.RotateCnt.toNat 1 s
  unfold rotateFiles
  rcases hfu : findUsable env s.cLogCfg.RotateCnt.toNat 1 s with ⟨s1, u, e⟩
  rw [hfu] at hf hf2
  simp only at hf hf2
  cases e with
  | some e => exact hf
  | none =>
    simp only
    have hk := shiftKept_slotsOnly env u s1
    rcases hsk : shiftKept env u s1 with ⟨s2, u2, e⟩
    rw [hsk] at hk
    simp only at hk
    have h2 := hk.ticks
    cases e with
    | some e =>
      simp only
      omega
    | none =>
      simp only
      have h3 := moveActive_tick env u2 s2
      omega

/-! ## The write path -/

theorem LogMsg_file (env : Env) (c : Caller) (msgType : MsgType) (msgFmt : String)
    (msgArg : List Arg) (s : Sys) (hshow : s.msgTypeShowList msgType = true)
    (hfile : s.cLogCfg.OutputToFile = true) :
    LogMsg env c msgType msgFmt msgArg s =
      match beforeWrite env c msgType msgFmt msgArg s with
      | (s1, some e) => (PrintMsg env ⟨thisFile, 297⟩ MsgErr "call doRotate() fail" [] s1, some e)
      | (s1, none) =>
        match fileWriteString env (fullMsg env c msgType msgFmt msgArg s) s1 with
        | (s2, some e) =>
          (PrintMsg env ⟨thisFile, 303⟩ MsgErr "call os.WriteString(%s) fail [%s]"
              [.str (fullMsg env c msgType msgFmt msgArg s), .str e.text] s2, some e)
        | (s2, none) => (s2, none) := by
  unfold LogMsg beforeWrite beforeFile
  by_cases hout : s.cLogCfg.OutputToStdout = true <;> by_cases hrot : s.cLogCfg.RotateFile = true <;>
    simp [hshow, hfile, hout, hrot, fullMsg, msgPrefix]

theorem LogMsg_nofile (env : Env) (c : Caller) (msgType : MsgType) (msgFmt : String)
    (msgArg : List Arg) (s : Sys) (hshow : s.msgTypeShowList msgType = true)
    (hfile : s.cLogCfg.OutputToFile = false) :
    LogMsg env c msgType msgFmt msgArg s = (beforeFile env c msgType msgFmt msgArg s, none) := by
  unfold LogMsg beforeFile
  by_cases hout : s.cLogCfg.OutputToStdout = true <;>
    simp [hshow, hfile, hout, fullMsg, msgPrefix]

theorem LogMsg_of_hidden (env : Env) (c : Caller) (msgType : MsgType) (msgFmt : String)
    (msgArg : List Arg) (s : Sys) (hhidden : s.msgTypeShowList msgType = false) :
    LogMsg env c msgType msgFmt msgArg s = (s, none) := by
  unfold LogMsg
  simp [hhidden]

theorem beforeFile_fields (env : Env) (c : Caller) (msgType : MsgType) (msgFmt : String)
    (msgArg : List Arg) (s : Sys) :
    (beforeFile env c msgType msgFmt msgArg s).fs = s.fs
    ∧ (beforeFile env c msgType msgFmt msgArg s).tick = s.tick
    ∧ (beforeFile env c msgType msgFmt msgArg s).cLogCfg = s.cLogCfg
    ∧ (beforeFile env c msgType msgFmt msgArg s).fileRD = s.fileRD
    ∧ (beforeFile env c msgType msgFmt msgArg s).msgTypeShowList = s.msgTypeShowList := by
  unfold beforeFile
  split <;> exact ⟨rfl, rfl, rfl, rfl, rfl⟩

/-- A call of `LogMsg` that triggers a rotation, when no call from now on
fails: the rotation is made, success is returned, and the active path names a
new file that holds the message and that the handle is open on. -/
theorem LogMsg_rotates (env : Env) (c : Caller) (msgType : MsgType) (msgFmt : String)
    (msgArg : List Arg) (s : Sys) (a : Nat) (hshow : s.msgTypeShowList msgType = true)
    (hfile : s.cLogCfg.OutputToFile = true) (hrot : s.cLogCfg.RotateFile = true)
    (hnf : ∀ n, s.tick ≤ n → env.fault n = false)
    (hdir : s.fs.dir s.cLogCfg.OutputFilePath = some a)
    (htrig : ¬ wrapInt64 (((fullMsg env c msgType msgFmt msgArg s).utf8ByteSize : Int)
      + ((s.fs.data a).utf8ByteSize : Int)) < s.cLogCfg.RotateSize) :
    (LogMsg env c msgType msgFmt msgArg s).2 = none
    ∧ (LogMsg env c msgType msgFmt msgArg s).1.fileRD = some s.fs.next
    ∧ (LogMsg env c msgType msgFmt msgArg s).1.fs.dir s.cLogCfg.OutputFilePath = some s.fs.next
    ∧ (LogMsg env c msgType msgFmt msgArg s).1.fs.data s.fs.next
        = fullMsg env c msgType msgFmt msgArg s
    ∧ (LogMsg env c msgType msgFmt msgArg s).1.cLogCfg = s.cLogCfg := by
  obtain ⟨b1, b2, b3, b4, b5⟩ := beforeFile_fields env c msgType msgFmt msgArg s
  rw [LogMsg_file env c msgType msgFmt msgArg s hshow hfile]
  have hbw : beforeWrite env c msgType msgFmt msgArg s
      = doRotate env (fullMsg env c msgType msgFmt msgArg s).utf8ByteSize
          (beforeFile env c msgType msgFmt msgArg s) := by
    unfold beforeWrite
    rw [if_pos hrot]
  rw [hbw]
  generalize beforeFile env c msgType msgFmt msgArg s = bf at b1 b2 b3 b4 b5 ⊢
  have hbdir : bf.fs.dir bf.cLogCfg.OutputFilePath = some a := by rw [b1, b3]; exact hdir
  have hcond : ¬ wrapInt64 (((fullMsg env c msgType msgFmt msgArg s).utf8ByteSize : Int)
      + ((bf.fs.data a).utf8ByteSize : Int)) < bf.cLogCfg.RotateSize := by
    rw [b1, b3]; exact htrig
  rw [doRotate_of_stat env _ bf a (by rw [b2]; exact hnf _ (Nat.le_refl _)) hbdir, if_neg hcond]
  obtain ⟨U, t, h1, _, _, _, _, _, _, _, h9, h10, h11, _, h13, _⟩ :=
    rotateFiles_noFault env { bf with tick := bf.tick + 1 }
      (fun n hn => hnf n (by simp only [b2] at hn; omega)) a hbdir
  have htick := rotateFiles_tick env { bf with tick := bf.tick + 1 }
  rw [h1] at htick
  simp only [b2] at htick
  simp only [b1, b3] at h9 h10 h11 h13
  rw [h1]
  simp only
  unfold fileWriteString
  simp only [h10, hnf t.tick (by omega), Bool.false_eq_true, if_false]
  refine ⟨trivial, trivial, h9, ?_, h13⟩
  simp [setData, h11]

/-- A call of `LogMsg` that triggers a rotation with backup `01` free, when
the rename of the active file fails: the error is returned, the handle is nil,
and the file system is as before. -/
theorem LogMsg_rename_fails (env : Env) (c : Caller) (msgType : MsgType) (msgFmt : String)
    (msgArg : List Arg) (s : Sys) (a : Nat) (hshow : s.msgTypeShowList msgType = true)
    (hfile : s.cLogCfg.OutputToFile = true) (hrot : s.cLogCfg.RotateFile = true)
    (hf0 : env.fault s.tick = false) (hf1 : env.fault (s.tick + 1) = false)
    (hf2 : env.fault (s.tick + 2) = true)
    (hdir : s.fs.dir s.cLogCfg.OutputFilePath = some a)
    (hslot : s.fs.dir (rotatePath s.cLogCfg.OutputFilePath 1) = none)
    (htrig : ¬ wrapInt64 (((fullMsg env c msgType msgFmt msgArg s).utf8ByteSize : Int)
      + ((s.fs.data a).utf8ByteSize : Int)) < s.cLogCfg.RotateSize) :
    (LogMsg env c msgType msgFmt msgArg s).2 = some (ioError "rename" s.cLogCfg.OutputFilePath)
    ∧ (LogMsg env c msgType msgFmt msgArg s).1.fileRD = none
    ∧ (LogMsg env c msgType msgFmt msgArg s).1.fs = s.fs
    ∧ (LogMsg env c msgType msgFmt msgArg s).1.tick = s.tick + 3
    ∧ (LogMsg env c msgType msgFmt msgArg s).1.cLogCfg = s.cLogCfg
    ∧ (LogMsg env c msgType msgFmt msgArg s).1.msgTypeShowList = s.msgTypeShowList := by
  obtain ⟨b1, b2, b3, b4, b5⟩ := beforeFile_fields env c msgType msgFmt msgArg s
  rw [LogMsg_file env c msgType msgFmt msgArg s hshow hfile]
  have hbw : beforeWrite env c msgType msgFmt msgArg s
      = doRotate env (fullMsg env c msgType msgFmt msgArg s).utf8ByteSize
          (beforeFile env c msgType msgFmt msgArg s) := by
    unfold beforeWrite
    rw [if_pos hrot]
  rw [hbw]
  generalize beforeFile env c msgType msgFmt msgArg s = bf at b1 b2 b3 b4 b5 ⊢
  have hbdir : bf.fs.dir bf.cLogCfg.OutputFilePath = some a := by rw [b1, b3]; exact hdir
  have hcond : ¬ wrapInt64 (((fullMsg env c msgType msgFmt msgArg s).utf8ByteSize : Int)
      + ((bf.fs.data a).utf8ByteSize : Int)) < bf.cLogCfg.RotateSize := by
    rw [b1, b3]; exact htrig
  rw [doRotate_of_stat env _ bf a (by rw [b2]; exact hf0) hbdir, if_neg hcond]
  have hbslot : bf.fs.dir (rotatePath bf.cLogCfg.OutputFilePath 1) = none := by
    rw [b1, b3]; exact hslot
  unfold rotateFiles findUsable
  dsimp only
  rw [checkFileExist_noFault env _ _ (by simp only [b2]; exact hf1)]
  simp only [hbslot, Option.isSome_none]
  have hsk : ∀ t : Sys, shiftKept env 1 t = (t, 1, none) := fun _ => rfl
  rw [hsk]
  simp only
  unfold moveActive osRename
  simp [b1, b2, b3, b5, hf2]

/-- A rotation that fails at the rename of the active file leaves the handle
nil; when the next call triggers the rotation again and no call fails any
more, that call reopens the file and succeeds. -/
theorem LogMsg_retry_recovers (env : Env) (c : Caller) (msgType : MsgType) (msgFmt : String)
    (msgArg : List Arg) (s : Sys) (a : Nat) (hshow : s.msgTypeShowList msgType = true)
    (hfile : s.cLogCfg.OutputToFile = true) (hrot : s.cLogCfg.RotateFile = true)
    (hf0 : env.fault s.tick = false) (hf1 : env.fault (s.tick + 1) = false)
    (hf2 : env.fault (s.tick + 2) = true)
    (hlater : ∀ n, s.tick + 3 ≤ n → env.fault n = false)
    (hdir : s.fs.dir s.cLogCfg.OutputFilePath = some a)
    (hslot : s.fs.dir (rotatePath s.cLogCfg.OutputFilePath 1) = none)
    (htrig : ∀ t : Sys, ¬ wrapInt64 (((fullMsg env c msgType msgFmt msgArg t).utf8ByteSize : Int)
      + ((s.fs.data a).utf8ByteSize : Int)) < s.cLogCfg.RotateSize) :
    (LogMsg env c msgType msgFmt msgArg s).2.isSome = true
    ∧ (LogMsg env c msgType msgFmt msgArg s).1.fileRD = none
    ∧ (LogMsg env c msgType msgFmt msgArg s).1.msgTypeShowList msgType = true
    ∧ (LogMsg env c msgType msgFmt msgArg s).1.cLogCfg.OutputToFile = true
    ∧ (LogMsg env c msgType msgFmt msgArg (LogMsg env c msgType msgFmt msgArg s).1).2 = none
    ∧ (LogMsg env c msgType msgFmt msgArg (LogMsg env c msgType msgFmt msgArg s).1).1.fileRD.isSome
        = true := by
  obtain ⟨d1, d2, d3, d4, d5, d6⟩ := LogMsg_rename_fails env c msgType msgFmt msgArg s a hshow
    hfile hrot hf0 hf1 hf2 hdir hslot (htrig s)
  generalize (LogMsg env c msgType msgFmt msgArg s).1 = s2 at d2 d3 d4 d5 d6 ⊢
  have hshow2 : s2.msgTypeShowList msgType = true := by rw [d6]; exact hshow
  have hfile2 : s2.cLogCfg.OutputToFile = true := by rw [d5]; exact hfile
  obtain ⟨r1, r2, _⟩ := LogMsg_rotates env c msgType msgFmt msgArg s2 a hshow2 hfile2
    (by rw [d5]; exact hrot) (fun n hn => hlater n (by omega)) (by rw [d3, d5]; exact hdir)
    (by rw [d3, d5]; exact htrig s2)
  refine ⟨by rw [d1]; rfl, d2, hshow2, hfile2, r1, by rw [r2]; rfl⟩

theorem wrapInt64_of_range (x : Int) (h0 : 0 ≤ x) (h1 : x < 2 ^ 63) : wrapInt64 x = x := by
  unfold wrapInt64
  omega

/-! ## Rotation after rotation -/

theorem utf8ByteSize_append (a b : String) :
    (a ++ b).utf8ByteSize = a.utf8ByteSize + b.utf8ByteSize := by
  cases a; cases b
  simp [String.utf8ByteSize, String.append]

/-- One round, on a file system that does not fail: the active file joins the
files rotated away, as the newest, and a new empty file is active. -/
theorem fillAndRotate_ring (env : Env) (hnf : NoFault env) (msgLen : Nat) (c : String) (s : Sys)
    (a : Nat) (hist : List (Nat × String)) (hring : Ring s a hist)
    (hcnt : 1 ≤ s.cLogCfg.RotateCnt)
    (htrig : ¬ wrapInt64 ((msgLen : Int) + (((s.fs.data a ++ c).utf8ByteSize : Nat) : Int))
      < s.cLogCfg.RotateSize) :
    ∃ t : Sys, fillAndRotate env msgLen c s = (t, none)
      ∧ Ring t s.fs.next ((a, s.fs.data a ++ c) :: hist)
      ∧ t.cLogCfg = s.cLogCfg ∧ t.fs.data s.fs.next = "" := by
  obtain ⟨w, hw⟩ : ∃ w : Sys, w = { s with
      tick := s.tick + 1,
      fs := { s.fs with data := setData s.fs.data a (s.fs.data a ++ c) } } := ⟨_, rfl⟩
  have hwrite : fileWriteString env c s = (w, none) := by
    unfold fileWriteString
    simp only [hring.handle, hnf _, Bool.false_eq_true, if_false, hw]
  have hwcfg : w.cLogCfg = s.cLogCfg := by rw [hw]
  have hwdir : w.fs.dir = s.fs.dir := by rw [hw]
  have hwnext : w.fs.next = s.fs.next := by rw [hw]
  have hwa : w.fs.data a = s.fs.data a ++ c := by
    rw [hw]
    simp [setData]
  have hwdata : ∀ j, j ≠ a → w.fs.data j = s.fs.data j := by
    intro j hj
    rw [hw]
    simp [setData, hj]
  have hwact : w.fs.dir w.cLogCfg.OutputFilePath = some a := by
    rw [hwcfg, hwdir]
    exact hring.active
  have hwwf : w.fs.wf := by
    intro p i hp
    rw [hwnext]
    rw [hwdir] at hp
    exact hring.wf p i hp
  have hrun : doRotate env msgLen w = rotateFiles env { w with tick := w.tick + 1 } := by
    rw [doRotate_of_stat env msgLen w a (hnf _) hwact, if_neg]
    rw [hwcfg, hwa]
    exact htrig
  obtain ⟨U, t, h1, h2, h3, h4, h5, h6, h7, _, h9, h10, h11, h12, h13, _⟩ :=
    rotateFiles_noFault env { w with tick := w.tick + 1 } (fun n _ => hnf n) a hwact
  have htwf : t.fs.wf := by
    have := (rotateFiles_spec env { w with tick := w.tick + 1 }).2.2.2.1 hwwf
    rw [h1] at this
    exact this
  simp only at h3 h4 h5 h6 h7 h9 h10 h11 h12 h13
  rw [hwcfg] at h3 h4 h5 h6 h7 h9 h13
  rw [hwdir] at h3 h4 h6 h7
  rw [hwnext] at h9 h10 h11 h12
  have hanext : a < s.fs.next := hring.wf _ _ hring.active
  have htdata : ∀ j, j < s.fs.next → t.fs.data j = w.fs.data j := by
    intro j hj
    rw [h11]
    simp [setData, Nat.ne_of_lt hj]
  refine ⟨t, ?_, ?_, h13, ?_⟩
  · unfold fillAndRotate
    rw [hwrite]
    simp only
    rw [hrun, h1]
  · refine ⟨htwf, ?_, h10, ?_, ?_, ?_, ?_, ?_⟩
    · rw [h13]; exact h9
    · intro j
      rw [h13]
      have hsl := hring.slots
      rcases Nat.lt_trichotomy j 1 with hj0 | hj1 | hjgt
      · have hj : j = 0 := by omega
        subst hj
        rw [h7 0 (Or.inl rfl), hsl 0]
        simp
      · subst hj1
        rw [h5]
        simp [hcnt]
      · obtain ⟨k, rfl⟩ : ∃ k, j = k + 1 := ⟨j - 1, by omega⟩
        have hk1 : 1 ≤ k := by omega
        by_cases hkU : k < U
        · rw [h6 k hk1 hkU, hsl k]
          have hkR := (h3 k hk1 hkU).2
          have e1 : (1 ≤ k ∧ (k : Int) ≤ s.cLogCfg.RotateCnt) := ⟨hk1, by omega⟩
          have e2 : (1 ≤ k + 1 ∧ ((k + 1 : Nat) : Int) ≤ s.cLogCfg.RotateCnt) :=
            ⟨by omega, by push_cast; omega⟩
          rw [if_pos e1, if_pos e2]
          obtain ⟨k', rfl⟩ : ∃ k', k = k' + 1 := ⟨k - 1, by omega⟩
          simp
        · rw [h7 (k + 1) (Or.inr (by omega)), hsl (k + 1)]
          by_cases hR : ((k + 1 : Nat) : Int) ≤ s.cLogCfg.RotateCnt
          · have e2 : (1 ≤ k + 1 ∧ ((k + 1 : Nat) : Int) ≤ s.cLogCfg.RotateCnt) :=
              ⟨by omega, hR⟩
            rw [if_pos e2, if_pos e2]
            have hUfree : s.fs.dir (rotatePath s.cLogCfg.OutputFilePath U) = none := by
              rcases h4 with h4 | h4
              · exact h4
              · push_cast at hR
                omega
            rw [hsl U] at hUfree
            have hUR : (1 ≤ U ∧ (U : Int) ≤ s.cLogCfg.RotateCnt) :=
              ⟨h2, by push_cast at hR; omega⟩
            rw [if_pos hUR] at hUfree
            have hlen : hist.length ≤ U - 1 := by
              cases hget : hist[U - 1]? with
              | none => exact List.getElem?_eq_none_iff.mp hget
              | some x => rw [hget] at hUfree; cases hUfree
            have g1 : hist[k + 1 - 1]? = none := List.getElem?_eq_none (by omega)
            have g2 : ((a, s.fs.data a ++ c) :: hist)[k + 1 - 1]? = none :=
              List.getElem?_eq_none (by simp; omega)
            rw [g1, g2]
          · have e2 : ¬ (1 ≤ k + 1 ∧ ((k + 1 : Nat) : Int) ≤ s.cLogCfg.RotateCnt) :=
              fun h => hR h.2
            rw [if_neg e2, if_neg e2]
    · intro p hp
      rcases List.mem_cons.mp hp with rfl | hp
      · show t.fs.data a = s.fs.data a ++ c
        rw [htdata a hanext, hwa]
      · rw [htdata p.1 (hring.bound p hp), hwdata p.1 (hring.apart p hp)]
        exact hring.contents p hp
    · intro p hp
      rw [h12]
      rcases List.mem_cons.mp hp with rfl | hp
      · show a < s.fs.next + 1
        omega
      · have := hring.bound p hp
        omega
    · intro p hp
      rcases List.mem_cons.mp hp with rfl | hp
      · show a ≠ s.fs.next
        omega
      · have := hring.bound p hp
        omega
    · rw [List.map_cons, List.nodup_cons]
      refine ⟨?_, hring.nodup⟩
      intro hmem
      obtain ⟨p, hp, hpa⟩ := List.mem_map.mp hmem
      exact hring.apart p hp hpa
  · rw [h11]
    simp [setData]

theorem rotatedTexts_empty (cs : List String) : rotatedTexts "" cs = cs := by
  cases cs <;> simp [rotatedTexts]

/-- The write of a round, on a file system that does not fail: the text is
appended to the active file. -/
theorem fileWriteString_ring (env : Env) (hnf : NoFault env) (c : String) (s : Sys) (a : Nat)
    (hist : List (Nat × String)) (hring : Ring s a hist) :
    (fileWriteString env c s).1.fs.dir (fileWriteString env c s).1.cLogCfg.OutputFilePath
        = some a
      ∧ (fileWriteString env c s).1.fs.data a = s.fs.data a ++ c
      ∧ (fileWriteString env c s).1.cLogCfg = s.cLogCfg := by
  unfold fileWriteString
  simp only [hring.handle, hnf _, Bool.false_eq_true, if_false]
  refine ⟨hring.active, ?_, trivial⟩
  simp [setData]

/-- Rounds one after the other, on a file system that does not fail: the files
rotated away join the ring in the order of the rounds. -/
theorem rotations_ring (env : Env) (hnf : NoFault env) :
    ∀ (rs : List (String × Nat)) (s : Sys) (a : Nat) (hist : List (Nat × String)),
      Ring s a hist → 1 ≤ s.cLogCfg.RotateCnt → Triggered env rs s →
      ∃ (t : Sys) (a' : Nat) (new : List (Nat × String)),
        rotations env rs s = (t, none)
        ∧ Ring t a' (new ++ hist)
        ∧ t.cLogCfg = s.cLogCfg
        ∧ new.map Prod.snd = (rotatedTexts (s.fs.data a) (rs.map Prod.fst)).reverse
        ∧ (rs ≠ [] → (new.map Prod.fst).getLast? = some a) := by
  intro rs
  induction rs with
  | nil =>
    intro s a hist hring _ _
    exact ⟨s, a, [], rfl, by simpa using hring, rfl, rfl, fun h => absurd rfl h⟩
  | cons r rest ih =>
    obtain ⟨c, msgLen⟩ := r
    intro s a hist hring hcnt htrig
    obtain ⟨⟨i, hi, hdue⟩, hrest⟩ := htrig
    obtain ⟨w1, w2, w3⟩ := fileWriteString_ring env hnf c s a hist hring
    rw [w1] at hi
    cases hi
    rw [w2, w3] at hdue
    obtain ⟨t1, r1, r2, r3, r4⟩ := fillAndRotate_ring env hnf msgLen c s a hist hring hcnt hdue
    rw [r1] at hrest
    obtain ⟨t, a', new, q1, q2, q3, q4, _⟩ :=
      ih t1 s.fs.next ((a, s.fs.data a ++ c) :: hist) r2 (by rw [r3]; exact hcnt) hrest
    refine ⟨t, a', new ++ [(a, s.fs.data a ++ c)], ?_, ?_, q3.trans r3, ?_, fun _ => ?_⟩
    · show rotations env ((c, msgLen) :: rest) s = _
      unfold rotations
      rw [r1]
      exact q1
    · rw [List.append_assoc]
      exact q2
    · rw [List.map_append, q4, r4, rotatedTexts_empty]
      simp [rotatedTexts]
    · simp

/-- On a file system that does not fail, rounds whose sizes reach the threshold
trigger a rotation each. -/
theorem triggered_of_sizes (env : Env) (hnf : NoFault env) :
    ∀ (rs : List (String × Nat)) (s : Sys) (a : Nat) (hist : List (Nat × String)),
      Ring s a hist → 1 ≤ s.cLogCfg.RotateCnt →
      sizesReach s.cLogCfg.RotateSize (s.fs.data a) rs → Triggered env rs s := by
  intro rs
  induction rs with
  | nil =>
    intro s a hist _ _ _
    exact trivial
  | cons r rest ih =>
    obtain ⟨c, msgLen⟩ := r
    intro s a hist hring hcnt hsz
    obtain ⟨h1, h2, h3⟩ := hsz
    obtain ⟨w1, w2, w3⟩ := fileWriteString_ring env hnf c s a hist hring
    have hdue : ¬ wrapInt64 ((msgLen : Int) + (((s.fs.data a ++ c).utf8ByteSize : Nat) : Int))
        < s.cLogCfg.RotateSize := by
      rw [wrapInt64_of_range _ (by omega) h2]
      omega
    obtain ⟨t1, r1, r2, r3, r4⟩ := fillAndRotate_ring env hnf msgLen c s a hist hring hcnt hdue
    refine ⟨⟨a, w1, ?_⟩, ?_⟩
    · rw [w2, w3]
      exact hdue
    · rw [r1]
      refine ih t1 s.fs.next _ r2 (by rw [r3]; exact hcnt) ?_
      rw [r3, r4]
      exact h3

/-! ## The states reached from `DoInit` -/

theorem osOpenFile_ok (env : Env) (path : String) (s s1 : Sys) (h : Nat)
    (hop : osOpenFile env path s = (s1, Except.ok h)) :
    s1.fs.dir path = some h ∧ (s.fs.wf → s1.fs.wf) ∧ s1.cLogCfg = s.cLogCfg := by
  unfold osOpenFile at hop
  dsimp only at hop
  split at hop
  · cases hop
  · split at hop
    · rename_i i hi
      injection hop with h1 h2
      injection h2 with h2
      subst h1 h2
      exact ⟨hi, fun hwf => hwf, rfl⟩
    · rename_i hnone
      injection hop with h1 h2
      injection h2 with h2
      subst h1 h2
      refine ⟨by simp [setDir], fun hwf => ?_, rfl⟩
      intro p i hp
      simp only [setDir] at hp
      show i < s.fs.next + 1
      split at hp
      · cases hp; omega
      · have := hwf p i hp
        omega

theorem DoInit_ready (env : Env) (cfg : CLogConfigInfo) (s0 : Sys) (hwf : s0.fs.wf)
    (hfile : cfg.OutputToFile = true) (hrot : cfg.RotateFile = true)
    (hok : (DoInit env cfg s0).2 = none) : Ready (DoInit env cfg s0).1 := by
  unfold DoInit at hok ⊢
  simp only [hfile, hrot, if_true] at hok ⊢
  rcases hop : osOpenFile env cfg.OutputFilePath s0 with ⟨s1, r⟩
  rw [hop] at hok
  cases r with
  | error e => simp [closeOnError] at hok
  | ok h =>
    obtain ⟨o1, o2, o3⟩ := osOpenFile_ok env cfg.OutputFilePath s0 s1 h hop
    simp only at hok ⊢
    split at hok
    · simp [closeOnError] at hok
    · split at hok
      · simp [closeOnError] at hok
      · rename_i h1 h2
        rw [if_neg h1, if_neg h2]
        exact ⟨o2 hwf, hfile, hrot, Or.inr o1.symm⟩

theorem fileWriteString_frame (env : Env) (msg : String) (s : Sys) :
    (fileWriteString env msg s).1.fs.dir = s.fs.dir
    ∧ (fileWriteString env msg s).1.fs.next = s.fs.next
    ∧ (fileWriteString env msg s).1.cLogCfg = s.cLogCfg
    ∧ (fileWriteString env msg s).1.fileRD = s.fileRD := by
  unfold fileWriteString
  split
  · exact ⟨rfl, rfl, rfl, rfl⟩
  · dsimp only
    split <;> exact ⟨rfl, rfl, rfl, rfl⟩

theorem LogMsg_ready (env : Env) (c : Caller) (msgType : MsgType) (msgFmt : String)
    (msgArg : List Arg) (s : Sys) (hr : Ready s) :
    Ready (LogMsg env c msgType msgFmt msgArg s).1 := by
  by_cases hshow : s.msgTypeShowList msgType = true
  swap
  · have hhid : s.msgTypeShowList msgType = false := by simpa using hshow
    rw [LogMsg_of_hidden env c msgType msgFmt msgArg s hhid]
    exact hr
  obtain ⟨b1, b2, b3, b4, b5⟩ := beforeFile_fields env c msgType msgFmt msgArg s
  rw [LogMsg_file env c msgType msgFmt msgArg s hshow hr.file]
  unfold beforeWrite
  rw [if_pos hr.rot]
  generalize beforeFile env c msgType msgFmt msgArg s = bf at b1 b2 b3 b4 b5 ⊢
  obtain ⟨q1, _, _, q4, q5, q6⟩ :=
    doRotate_spec env (fullMsg env c msgType msgFmt msgArg s).utf8ByteSize bf
  rcases hdr : doRotate env (fullMsg env c msgType msgFmt msgArg s).utf8ByteSize bf with ⟨s1, e⟩
  rw [hdr] at q1 q4 q5 q6
  simp only at q1 q4 q5 q6
  have hwf1 : s1.fs.wf := q4 (by rw [b1]; exact hr.wf)
  have hcfg1 : s1.cLogCfg = s.cLogCfg := q1.trans b3
  cases e with
  | some e =>
    simp only
    refine ⟨by simpa using hwf1, by simp [hcfg1, hr.file], by simp [hcfg1, hr.rot], ?_⟩
    simp only [PrintMsg_fileRD, PrintMsg_fs, PrintMsg_cLogCfg, hcfg1]
    rcases (q5 e rfl).2 with h | ⟨h1, h2⟩
    · exact Or.inl h
    · rw [h1, b4]
      rw [b3, b1] at h2
      rw [h2]
      exact hr.handle
  | none =>
    simp only
    have hh1 : s1.fileRD = none ∨ s1.fileRD = s1.fs.dir s.cLogCfg.OutputFilePath := by
      rcases q6 rfl with ⟨h1, h2, _⟩ | ⟨h1, h2, _⟩
      · rw [h1, h2, b1, b4]
        exact hr.handle
      · rw [b3, b1] at h2
        rw [b1] at h1
        exact Or.inr (h1.trans h2.symm)
    obtain ⟨w1, w2, w3, w4⟩ :=
      fileWriteString_frame env (fullMsg env c msgType msgFmt msgArg s) s1
    rcases hwr : fileWriteString env (fullMsg env c msgType msgFmt msgArg s) s1 with ⟨s2, e2⟩
    rw [hwr] at w1 w2 w3 w4
    simp only at w1 w2 w3 w4
    have hwf2 : s2.fs.wf := by
      intro p i hp
      rw [w2]
      rw [w1] at hp
      exact hwf1 p i hp
    have hcfg2 : s2.cLogCfg = s.cLogCfg := w3.trans hcfg1
    have hh2 : s2.fileRD = none ∨ s2.fileRD = s2.fs.dir s2.cLogCfg.OutputFilePath := by
      rw [w4, w1, hcfg2]
      exact hh1
    cases e2 with
    | some e2 =>
      simp only
      refine ⟨by simpa using hwf2, by simp [hcfg2, hr.file], by simp [hcfg2, hr.rot], ?_⟩
      simpa using hh2
    | none =>
      simp only
      exact ⟨hwf2, by rw [hcfg2]; exact hr.file, by rw [hcfg2]; exact hr.rot, hh2⟩

theorem Reached.ready {env : Env} {s : Sys} (h : Reached env s) : Ready s := by
  induction h with
  | init s0 cfg hwf hfile hrot hok => exact DoInit_ready env cfg s0 hwf hfile hrot hok
  | log s c msgType msgFmt msgArg _ ih => exact LogMsg_ready env c msgType msgFmt msgArg s ih
  | changeShow s cfg _ ih => exact ⟨ih.wf, ih.file, ih.rot, ih.handle⟩
  | exit s _ ih => exact ⟨ih.wf, ih.file, ih.rot, Or.inl rfl⟩

/-- A message at least as long as `RotateSize`, when no call from now on
fails: `LogMsg` rotates, writes the message into the new active file and
returns success, and the active file is then not below `RotateSize`. -/
theorem LogMsg_long_message (env : Env) (c : Caller) (msgType : MsgType) (msgFmt : String)
    (msgArg : List Arg) (s : Sys) (a : Nat) (path : String)
    (hpath : s.cLogCfg.OutputFilePath = path)
    (hshow : s.msgTypeShowList msgType = true)
    (hfile : s.cLogCfg.OutputToFile = true) (hrot : s.cLogCfg.RotateFile = true)
    (hnf : ∀ n, s.tick ≤ n → env.fault n = false)
    (hdir : s.fs.dir path = some a)
    (hbig : s.cLogCfg.RotateSize ≤ ((fullMsg env c msgType msgFmt msgArg s).utf8ByteSize : Int))
    (hrange : ((fullMsg env c msgType msgFmt msgArg s).utf8ByteSize : Int)
      + ((s.fs.data a).utf8ByteSize : Int) < 2 ^ 63) :
    (LogMsg env c msgType msgFmt msgArg s).2 = none
    ∧ ∃ i, (LogMsg env c msgType msgFmt msgArg s).1.fs.dir path = some i
      ∧ s.cLogCfg.RotateSize
          ≤ (((LogMsg env c msgType msgFmt msgArg s).1.fs.data i).utf8ByteSize : Int) := by
  subst hpath
  have htrig : ¬ wrapInt64 (((fullMsg env c msgType msgFmt msgArg s).utf8ByteSize : Int)
      + ((s.fs.data a).utf8ByteSize : Int)) < s.cLogCfg.RotateSize := by
    rw [wrapInt64_of_range _ (by omega) hrange]
    omega
  obtain ⟨r1, _, r3, r4, _⟩ :=
    LogMsg_rotates env c msgType msgFmt msgArg s a hshow hfile hrot hnf hdir htrig
  exact ⟨r1, s.fs.next, r3, by rw [r4]; exact hbig⟩

/-! ## A concrete run: the configuration of `example/main.go` -/

theorem exEnv_noFault : NoFault exEnv := fun _ => rfl

theorem exSys_dir (p : String) :
    exSys.fs.dir p = if p = "log.txt" then some 0 else none := rfl

theorem exSys_wf : exSys.fs.wf := by
  intro p i h
  rw [exSys_dir] at h
  split at h
  · cases h
    decide
  · cases h

theorem exSys_slot1 : rotatePath exSys.cLogCfg.OutputFilePath 1 = "log.txt.01" := rfl

theorem exSys_slot2 : rotatePath exSys.cLogCfg.OutputFilePath 2 = "log.txt.02" := rfl

theorem exSys_slot3 : rotatePath exSys.cLogCfg.OutputFilePath 3 = "log.txt.03" := rfl

theorem exSys_slot4 : rotatePath exSys.cLogCfg.OutputFilePath 4 = "log.txt.04" := rfl

theorem ringSys_wf : ringSys.fs.wf := by
  intro p i h
  have hd : ringSys.fs.dir p = if p = "log.txt" then some 0
      else if p = "log.txt.01" then some 1
      else if p = "log.txt.02" then some 2 else none := rfl
  rw [hd] at h
  show i < 3
  split at h
  · cases h; decide
  · split at h
    · cases h; decide
    · split at h
      · cases h; decide
      · cases h

theorem fullSys_wf : fullSys.fs.wf := by
  intro p i h
  have hd : fullSys.fs.dir p = if p = "log.txt" then some 0
      else if p = "log.txt.01" then some 1
      else if p = "log.txt.02" then some 2
      else if p = "log.txt.03" then some 3
      else if p = "log.txt.04" then some 4 else none := rfl
  rw [hd] at h
  show i < 5
  split at h
  · cases h; decide
  · split at h
    · cases h; decide
    · split at h
      · cases h; decide
      · split at h
        · cases h; decide
        · split at h
          · cases h; decide
          · cases h

theorem ringSys_slot1 : rotatePath ringSys.cLogCfg.OutputFilePath 1 = "log.txt.01" := rfl

theorem ringSys_slot2 : rotatePath ringSys.cLogCfg.OutputFilePath 2 = "log.txt.02" := rfl

theorem ringSys_slot3 : rotatePath ringSys.cLogCfg.OutputFilePath 3 = "log.txt.03" := rfl

theorem ringSys_slot4 : rotatePath ringSys.cLogCfg.OutputFilePath 4 = "log.txt.04" := rfl

theorem ringSys_path : ringSys.cLogCfg.OutputFilePath = "log.txt" := rfl

theorem fullSys_slot1 : rotatePath fullSys.cLogCfg.OutputFilePath 1 = "log.txt.01" := rfl

theorem fullSys_slot2 : rotatePath fullSys.cLogCfg.OutputFilePath 2 = "log.txt.02" := rfl

theorem fullSys_slot3 : rotatePath fullSys.cLogCfg.OutputFilePath 3 = "log.txt.03" := rfl

theorem fullSys_slot4 : rotatePath fullSys.cLogCfg.OutputFilePath 4 = "log.txt.04" := rfl

theorem fullSys_slot5 : rotatePath fullSys.cLogCfg.OutputFilePath 5 = "log.txt.05" := rfl

theorem fullSys_path : fullSys.cLogCfg.OutputFilePath = "log.txt" := rfl

theorem oneByteInit_slot1 : rotatePath oneByteInit.cLogCfg.OutputFilePath 1 = "log.txt.01" := rfl

theorem oneByteInit_path : oneByteInit.cLogCfg.OutputFilePath = "log.txt" := rfl

theorem oneByteInit_next : oneByteInit.fs.next = 1 := rfl

theorem utf8ByteSize_replicate_x (n : Nat) :
    (String.mk (List.replicate n 'x')).utf8ByteSize = n := by
  induction n with
  | zero => rfl
  | succ n ih =>
    have h : String.mk (List.replicate (n + 1) 'x') = String.mk (List.replicate n 'x') ++ "x" := by
      apply String.ext
      simp [List.replicate_succ']
    rw [h, utf8ByteSize_append, ih]
    rfl

theorem bigText_size : bigText.utf8ByteSize = 2097152 := utf8ByteSize_replicate_x _

theorem sys0_wf : sys0.fs.wf := by
  intro p i h
  cases h

theorem exSys_reached : Reached exEnv exSys := Reached.init sys0 exCfg sys0_wf rfl rfl rfl

theorem exSys_msgPrefix (s : Sys) :
    msgPrefix exEnv exCaller MsgErr s = "2024/01/01-00:00:00 main.go(0042).ERR: " := rfl

/-- The full message of a text without `%`, in the environment of the example. -/
theorem exSys_plainMsg (s : Sys) (m : String) (hm : '%' ∉ m.data) :
    fullMsg exEnv exCaller MsgErr m [] s
      = "2024/01/01-00:00:00 main.go(0042).ERR: " ++ m ++ "\n" := by
  have hs : exEnv.sprintf = goSprintf := rfl
  unfold fullMsg
  rw [exSys_msgPrefix, hs]
  apply goSprintf_plain
  rw [String.data_append, String.data_append]
  intro hmem
  rcases List.mem_append.mp hmem with h | h
  · rcases List.mem_append.mp h with h | h
    · revert h
      decide
    · exact hm h
  · revert h
    decide

theorem exSys_plainMsg_size (s : Sys) (m : String) (hm : '%' ∉ m.data) :
    (fullMsg exEnv exCaller MsgErr m [] s).utf8ByteSize = 39 + m.utf8ByteSize + 1 := by
  rw [exSys_plainMsg s m hm, utf8ByteSize_append, utf8ByteSize_append]
  rfl

theorem bigText_plain : '%' ∉ bigText.data := by
  have hb : bigText.data = List.replicate 2097152 'x' := rfl
  rw [hb]
  intro h
  have := (List.mem_replicate.mp h).2
  revert this
  decide

theorem exSys_bigMsg_size (s : Sys) :
    (fullMsg exEnv exCaller MsgErr bigText [] s).utf8ByteSize = 2097192 := by
  rw [exSys_plainMsg_size s bigText bigText_plain, bigText_size]

/-! ## The claims -/

/-- C6. A call of `LogMsg` at a level whose visibility flag is false returns
success and changes nothing: nothing is written to the console or to a file,
no rotation is made, the lock is not taken (the count of lockings is the
same), and the configuration, the flags, the handle and the file system are
as before. -/
theorem LogMsg_hidden_noop (env : Env) (c : Caller) (msgType : MsgType) (msgFmt : String)
    (msgArg : List Arg) (s : Sys) (hhidden : s.msgTypeShowList msgType = false) :
    LogMsg env c msgType msgFmt msgArg s = (s, none) := by
  unfold LogMsg
  simp [hhidden]

theorem LogMsg_hidden_noop_witness :
    exSys.msgTypeShowList MsgDbg = false
      ∧ LogMsg exEnv exCaller MsgDbg "debug message 1" [] exSys = (exSys, none) :=
  ⟨by rfl, LogMsg_hidden_noop exEnv exCaller MsgDbg "debug message 1" [] exSys (by rfl)⟩

/-- C4. `DoInit` returns an error exactly when file output is requested and
either the file cannot be opened or rotation is requested with `RotateSize`
outside 1 MiB .. 256 MiB or `RotateCnt` outside 1 .. 99; and after an error
the handle is nil. -/
theorem DoInit_error_iff (env : Env) (argCLogCfg : CLogConfigInfo) (s : Sys) :
    ((DoInit env argCLogCfg s).2.isSome = true ↔
      argCLogCfg.OutputToFile = true
        ∧ ((∃ e, (osOpenFile env argCLogCfg.OutputFilePath s).2 = Except.error e)
          ∨ (argCLogCfg.RotateFile = true
            ∧ (argCLogCfg.RotateSize < 1048576 ∨ 268435456 < argCLogCfg.RotateSize
              ∨ argCLogCfg.RotateCnt < 1 ∨ 99 < argCLogCfg.RotateCnt))))
    ∧ ((DoInit env argCLogCfg s).2.isSome = true → (DoInit env argCLogCfg s).1.fileRD = none) := by
  unfold DoInit
  by_cases hfile : argCLogCfg.OutputToFile = true
  · simp only [hfile, if_true, true_and]
    rcases hop : osOpenFile env argCLogCfg.OutputFilePath s with ⟨s1, r⟩
    cases r with
    | error e => simp [closeOnError]
    | ok h =>
      simp only
      by_cases hrot : argCLogCfg.RotateFile = true
      · simp only [hrot, if_true, true_and]
        by_cases hsize : argCLogCfg.RotateSize < minRotateSize ∨ maxRotateSize < argCLogCfg.RotateSize
        · simp only [hsize, if_true, closeOnError]
          have hsize2 := hsize
          simp only [minRotateSize, maxRotateSize] at hsize2
          norm_num at hsize2
          refine ⟨⟨fun _ => Or.inr ?_, fun _ => rfl⟩, fun _ => trivial⟩
          rcases hsize2 with h | h
          · exact Or.inl h
          · exact Or.inr (Or.inl h)
        · simp only [hsize, if_false]
          have hsize2 := hsize
          simp only [minRotateSize, maxRotateSize] at hsize2
          norm_num at hsize2
          by_cases hcnt : argCLogCfg.RotateCnt < minRotateCnt ∨ maxRotateCnt < argCLogCfg.RotateCnt
          · simp only [hcnt, if_true, closeOnError]
            have hcnt2 := hcnt
            simp only [minRotateCnt, maxRotateCnt] at hcnt2
            refine ⟨⟨fun _ => Or.inr ?_, fun _ => rfl⟩, fun _ => trivial⟩
            rcases hcnt2 with h | h
            · exact Or.inr (Or.inr (Or.inl h))
            · exact Or.inr (Or.inr (Or.inr h))
          · simp only [hcnt, if_false, closeOnError]
            have hcnt2 := hcnt
            simp only [minRotateCnt, maxRotateCnt] at hcnt2
            simp only [Option.isSome_none, Bool.false_eq_true, false_iff, false_imp_iff, and_true]
            rintro (⟨e, he⟩ | h)
            · cases he
            · omega
      · simp [hrot, closeOnError]
  · simp [hfile, closeOnError]

/-- C1, the claim fails.  In the state reached through `DoInit` with the
configuration of `main` in a directory whose log file holds one byte, the stat
of the active file succeeds and `msgLen + size >= RotateSize` holds for
`msgLen = 9223372036854775807`, the largest `int64`; yet `doRotate` returns
success without a rotation, the file system and the handle as they were and
no backup `01`: the sum of the code is an `int64` sum, which wraps to a
negative number. -/
theorem doRotate_wraps :
    exEnv.fault oneByteInit.tick = false
    ∧ oneByteInit.fs.dir oneByteInit.cLogCfg.OutputFilePath = some 0
    ∧ (oneByteInit.fs.data 0).utf8ByteSize = 1
    ∧ oneByteInit.cLogCfg.RotateSize ≤ ((9223372036854775807 : Nat) : Int) + ((1 : Nat) : Int)
    ∧ doRotate exEnv 9223372036854775807 oneByteInit
        = ({ oneByteInit with tick := oneByteInit.tick + 1 }, none)
    ∧ (doRotate exEnv 9223372036854775807 oneByteInit).1.fs.dir "log.txt.01" = none := by
  refine ⟨rfl, rfl, rfl, by decide, ?_, ?_⟩
  · rw [doRotate_of_stat exEnv _ oneByteInit 0 rfl rfl, if_pos (by decide)]
  · rw [doRotate_of_stat exEnv _ oneByteInit 0 rfl rfl, if_pos (by decide)]
    rfl

/-- C1, amended.  With a successful `os.Stat` of the active file, of size
`size`, and `msgLen + size` within the range of `int64` (below `2^63`, so that
the sum of the code does not wrap): `doRotate` runs the rotation exactly when
`msgLen + size >= RotateSize`; below the threshold (so also at
`RotateSize - 1`) it returns success with the file system and the handle as
they were; at or above it (so also at equality), when no later call fails,
the file that was active is the backup `01` afterwards and the active path
names a new file. -/
theorem doRotate_threshold (env : Env) (msgLen : Nat) (s : Sys) (i : Nat)
    (hfault : env.fault s.tick = false) (hdir : s.fs.dir s.cLogCfg.OutputFilePath = some i)
    (hrange : (msgLen : Int) + ((s.fs.data i).utf8ByteSize : Int) < 2 ^ 63) :
    (doRotate env msgLen s = rotateFiles env { s with tick := s.tick + 1 }
        ↔ s.cLogCfg.RotateSize ≤ (msgLen : Int) + ((s.fs.data i).utf8ByteSize : Int))
    ∧ ((msgLen : Int) + ((s.fs.data i).utf8ByteSize : Int) < s.cLogCfg.RotateSize →
        doRotate env msgLen s = ({ s with tick := s.tick + 1 }, none))
    ∧ ((msgLen : Int) + ((s.fs.data i).utf8ByteSize : Int) = s.cLogCfg.RotateSize - 1 →
        (doRotate env msgLen s).2 = none ∧ (doRotate env msgLen s).1.fs = s.fs
          ∧ (doRotate env msgLen s).1.fileRD = s.fileRD)
    ∧ (s.cLogCfg.RotateSize ≤ (msgLen : Int) + ((s.fs.data i).utf8ByteSize : Int) →
        NoFault env →
        (doRotate env msgLen s).2 = none
          ∧ (doRotate env msgLen s).1.fs.dir (rotatePath s.cLogCfg.OutputFilePath 1) = some i
          ∧ (doRotate env msgLen s).1.fs.dir s.cLogCfg.OutputFilePath = some s.fs.next
          ∧ (doRotate env msgLen s).1.fileRD = some s.fs.next) := by
  have hw := wrapInt64_of_range _ (by omega) hrange
  have hrun := doRotate_of_stat env msgLen s i hfault hdir
  rw [hw] at hrun
  have hbelow : (msgLen : Int) + ((s.fs.data i).utf8ByteSize : Int) < s.cLogCfg.RotateSize →
      doRotate env msgLen s = ({ s with tick := s.tick + 1 }, none) := by
    intro h
    rw [hrun, if_pos h]
  have habove : s.cLogCfg.RotateSize ≤ (msgLen : Int) + ((s.fs.data i).utf8ByteSize : Int) →
      doRotate env msgLen s = rotateFiles env { s with tick := s.tick + 1 } := by
    intro h
    rw [hrun, if_neg (by omega)]
  refine ⟨⟨fun h => ?_, habove⟩, hbelow, fun h => ?_, fun h hnf => ?_⟩
  · by_contra hlt
    have h2 := hbelow (by omega)
    rw [h2] at h
    have h3 := rotateFiles_tick env { s with tick := s.tick + 1 }
    rw [← h] at h3
    simp at h3
  · rw [hbelow (by omega)]
    exact ⟨rfl, rfl, rfl⟩
  · rw [habove h]
    obtain ⟨U, t, h1, _, _, _, h5, _, _, _, h9, h10, _⟩ :=
      rotateFiles_noFault env { s with tick := s.tick + 1 } (fun n _ => hnf n) i hdir
    rw [h1]
    exact ⟨rfl, h5, h9, h10⟩

theorem doRotate_threshold_witness :
    (oneByteInit.fs.data 0).utf8ByteSize = 1
    ∧ ((doRotate exEnv 2097150 oneByteInit).2 = none
      ∧ (doRotate exEnv 2097150 oneByteInit).1.fs = oneByteInit.fs
      ∧ (doRotate exEnv 2097150 oneByteInit).1.fileRD = oneByteInit.fileRD)
    ∧ ((doRotate exEnv 2097151 oneByteInit).2 = none
      ∧ (doRotate exEnv 2097151 oneByteInit).1.fs.dir "log.txt.01" = some 0
      ∧ (doRotate exEnv 2097151 oneByteInit).1.fs.dir "log.txt" = some 1
      ∧ (doRotate exEnv 2097151 oneByteInit).1.fileRD = some 1) := by
  have hbelow :=
    (doRotate_threshold exEnv 2097150 oneByteInit 0 rfl rfl (by decide)).2.2.1 (by decide)
  have hat :=
    (doRotate_threshold exEnv 2097151 oneByteInit 0 rfl rfl (by decide)).2.2.2 (by decide)
      exEnv_noFault
  rw [oneByteInit_slot1, oneByteInit_path, oneByteInit_next] at hat
  exact ⟨rfl, hbelow, hat⟩

/-- C5. `LogMsg` returns an error exactly when the level is visible, file
output is on, and either rotation is on and `doRotate` fails, or the write to
the handle fails.  The error returned is the first one: that of `doRotate`
when it fails, and then the contents of every file are as before the call;
otherwise that of the write. -/
theorem LogMsg_error_iff (env : Env) (c : Caller) (msgType : MsgType) (msgFmt : String)
    (msgArg : List Arg) (s : Sys) :
    ((LogMsg env c msgType msgFmt msgArg s).2.isSome = true ↔
      s.msgTypeShowList msgType = true ∧ s.cLogCfg.OutputToFile = true
        ∧ ((s.cLogCfg.RotateFile = true
            ∧ (doRotate env (fullMsg env c msgType msgFmt msgArg s).utf8ByteSize
                (beforeFile env c msgType msgFmt msgArg s)).2.isSome = true)
          ∨ ((beforeWrite env c msgType msgFmt msgArg s).2 = none
            ∧ (fileWriteString env (fullMsg env c msgType msgFmt msgArg s)
                (beforeWrite env c msgType msgFmt msgArg s).1).2.isSome = true)))
    ∧ (∀ e, s.msgTypeShowList msgType = true → s.cLogCfg.OutputToFile = true →
        s.cLogCfg.RotateFile = true →
        (doRotate env (fullMsg env c msgType msgFmt msgArg s).utf8ByteSize
          (beforeFile env c msgType msgFmt msgArg s)).2 = some e →
        (LogMsg env c msgType msgFmt msgArg s).2 = some e
          ∧ (LogMsg env c msgType msgFmt msgArg s).1.fs.data = s.fs.data)
    ∧ (∀ e, s.msgTypeShowList msgType = true → s.cLogCfg.OutputToFile = true →
        (beforeWrite env c msgType msgFmt msgArg s).2 = none →
        (fileWriteString env (fullMsg env c msgType msgFmt msgArg s)
          (beforeWrite env c msgType msgFmt msgArg s).1).2 = some e →
        (LogMsg env c msgType msgFmt msgArg s).2 = some e) := by
  have hbf : (beforeFile env c msgType msgFmt msgArg s).fs = s.fs := by
    unfold beforeFile
    split <;> rfl
  by_cases hshow : s.msgTypeShowList msgType = true
  swap
  · have hhid : s.msgTypeShowList msgType = false := by simpa using hshow
    rw [LogMsg_of_hidden env c msgType msgFmt msgArg s hhid]
    simp [hhid]
  by_cases hfile : s.cLogCfg.OutputToFile = true
  swap
  · have hoff : s.cLogCfg.OutputToFile = false := by simpa using hfile
    rw [LogMsg_nofile env c msgType msgFmt msgArg s hshow hoff]
    simp [hoff]
  rw [LogMsg_file env c msgType msgFmt msgArg s hshow hfile]
  simp only [hshow, hfile, true_and, forall_true_left]
  by_cases hrot : s.cLogCfg.RotateFile = true
  · have hbw : beforeWrite env c msgType msgFmt msgArg s
        = doRotate env (fullMsg env c msgType msgFmt msgArg s).utf8ByteSize
            (beforeFile env c msgType msgFmt msgArg s) := by
      unfold beforeWrite
      rw [if_pos hrot]
    rw [hbw]
    have hspec := doRotate_spec env (fullMsg env c msgType msgFmt msgArg s).utf8ByteSize
      (beforeFile env c msgType msgFmt msgArg s)
    rcases hdr : doRotate env (fullMsg env c msgType msgFmt msgArg s).utf8ByteSize
      (beforeFile env c msgType msgFmt msgArg s) with ⟨s1, e1⟩
    rw [hdr] at hspec
    cases e1 with
    | some e1 =>
      have hdata := (hspec.2.2.2.2.1 e1 rfl).1
      simp only at hdata
      rw [hbf] at hdata
      simp [hrot, hdata]
    | none =>
      simp only [hrot, true_and]
      rcases hwr : fileWriteString env (fullMsg env c msgType msgFmt msgArg s) s1 with ⟨s2, e2⟩
      cases e2 <;> simp
  · have hbw : beforeWrite env c msgType msgFmt msgArg s
        = (beforeFile env c msgType msgFmt msgArg s, none) := by
      unfold beforeWrite
      rw [if_neg hrot]
    rw [hbw]
    simp only [hrot]
    rcases hwr : fileWriteString env (fullMsg env c msgType msgFmt msgArg s)
      (beforeFile env c msgType msgFmt msgArg s) with ⟨s2, e2⟩
    cases e2 <;> simp

/-- C2. On a file system that does not fail and where no name stands for a
file yet to be created, let `doRotate` trigger a rotation with
`1 <= RotateCnt`, and let `u` be the least number in `1..RotateCnt` whose
backup does not exist, or `RotateCnt` when all exist.  Then `doRotate`
succeeds; backup `01` holds what the active file held; for `1 <= k < u`
backup `k+1` holds what backup `k` held; every backup above `u` is as before;
and the active path names an empty file, the one the handle is open on. -/
theorem doRotate_shifts (env : Env) (hnf : NoFault env) (msgLen : Nat) (s : Sys) (a u : Nat)
    (hwf : s.fs.wf) (hdir : s.fs.dir s.cLogCfg.OutputFilePath = some a)
    (htrig : ¬ wrapInt64 ((msgLen : Int) + ((s.fs.data a).utf8ByteSize : Int))
      < s.cLogCfg.RotateSize)
    (hcnt : 1 ≤ s.cLogCfg.RotateCnt) (hu1 : 1 ≤ u) (huR : (u : Int) ≤ s.cLogCfg.RotateCnt)
    (hocc : ∀ k, 1 ≤ k → k < u →
      (s.fs.dir (rotatePath s.cLogCfg.OutputFilePath k)).isSome = true)
    (hfree : s.fs.dir (rotatePath s.cLogCfg.OutputFilePath u) = none
      ∨ (u : Int) = s.cLogCfg.RotateCnt) :
    (doRotate env msgLen s).2 = none
    ∧ readFile (doRotate env msgLen s).1.fs (rotatePath s.cLogCfg.OutputFilePath 1)
        = some (s.fs.data a)
    ∧ (∀ k, 1 ≤ k → k < u →
        readFile (doRotate env msgLen s).1.fs (rotatePath s.cLogCfg.OutputFilePath (k + 1))
          = readFile s.fs (rotatePath s.cLogCfg.OutputFilePath k))
    ∧ (∀ k, u < k →
        readFile (doRotate env msgLen s).1.fs (rotatePath s.cLogCfg.OutputFilePath k)
          = readFile s.fs (rotatePath s.cLogCfg.OutputFilePath k))
    ∧ readFile (doRotate env msgLen s).1.fs s.cLogCfg.OutputFilePath = some ""
    ∧ (doRotate env msgLen s).1.fileRD
        = (doRotate env msgLen s).1.fs.dir s.cLogCfg.OutputFilePath
    ∧ (doRotate env msgLen s).1.fileRD.isSome = true := by
  rw [doRotate_of_stat env msgLen s a (hnf _) hdir, if_neg htrig]
  obtain ⟨U, t, h1, h2, h3, h4, h5, h6, h7, _, h9, h10, h11, _⟩ :=
    rotateFiles_noFault env { s with tick := s.tick + 1 } (fun n _ => hnf n) a hdir
  simp only at h3 h4 h5 h6 h7 h9 h11
  have hU : U = u := by
    rcases Nat.lt_trichotomy U u with hlt | heq | hgt
    · have hex := hocc U h2 hlt
      rcases h4 with h4 | h4
      · rw [h4] at hex; cases hex
      · omega
    · exact heq
    · have hex := h3 u hu1 hgt
      rcases hfree with hf | hf
      · rw [hf] at hex; cases hex.1
      · omega
  subst hU
  rw [h1]
  have hdata : ∀ j, j < s.fs.next → t.fs.data j = s.fs.data j := by
    intro j hj
    rw [h11]
    simp [setData, Nat.ne_of_lt hj]
  have hread : ∀ p q, t.fs.dir p = s.fs.dir q → readFile t.fs p = readFile s.fs q := by
    intro p q hpq
    unfold readFile
    rw [hpq]
    cases hq : s.fs.dir q with
    | none => rfl
    | some j => simp [hdata j (hwf q j hq)]
  refine ⟨rfl, ?_, fun k hk1 hk2 => hread _ _ (h6 k hk1 hk2),
    fun k hk => hread _ _ (h7 k (Or.inr hk)), ?_, ?_, ?_⟩
  · have := hread (rotatePath s.cLogCfg.OutputFilePath 1) s.cLogCfg.OutputFilePath
      (h5.trans hdir.symm)
    rw [this]
    unfold readFile
    rw [hdir]
    rfl
  · show readFile t.fs _ = _
    unfold readFile
    rw [h9, h11]
    simp [setData]
  · show t.fileRD = t.fs.dir _
    rw [h9, h10]
  · show t.fileRD.isSome = true
    rw [h10]
    rfl

theorem doRotate_shifts_witness :
    ((doRotate exEnv 2097149 ringSys).2 = none
      ∧ readFile (doRotate exEnv 2097149 ringSys).1.fs "log.txt.01" = some "new"
      ∧ readFile (doRotate exEnv 2097149 ringSys).1.fs "log.txt.02" = some "old1"
      ∧ readFile (doRotate exEnv 2097149 ringSys).1.fs "log.txt.03" = some "old2"
      ∧ readFile (doRotate exEnv 2097149 ringSys).1.fs "log.txt.04" = none
      ∧ readFile (doRotate exEnv 2097149 ringSys).1.fs "log.txt" = some ""
      ∧ (doRotate exEnv 2097149 ringSys).1.fileRD
          = (doRotate exEnv 2097149 ringSys).1.fs.dir "log.txt")
    ∧ ((doRotate exEnv 2097149 fullSys).2 = none
      ∧ readFile (doRotate exEnv 2097149 fullSys).1.fs "log.txt.01" = some "new"
      ∧ readFile (doRotate exEnv 2097149 fullSys).1.fs "log.txt.02" = some "old1"
      ∧ readFile (doRotate exEnv 2097149 fullSys).1.fs "log.txt.03" = some "old2"
      ∧ readFile (doRotate exEnv 2097149 fullSys).1.fs "log.txt.04" = some "old3"
      ∧ readFile (doRotate exEnv 2097149 fullSys).1.fs "log.txt.05" = none
      ∧ readFile (doRotate exEnv 2097149 fullSys).1.fs "log.txt" = some ""
      ∧ (doRotate exEnv 2097149 fullSys).1.fileRD
          = (doRotate exEnv 2097149 fullSys).1.fs.dir "log.txt") := by
  have h := doRotate_shifts exEnv exEnv_noFault 2097149 ringSys 0 3 ringSys_wf rfl (by decide)
    (by decide) (by decide) (by decide)
    (fun k h1 h2 => by
      have hk : k = 1 ∨ k = 2 := by omega
      rcases hk with rfl | rfl <;> rfl)
    (Or.inl rfl)
  have g := doRotate_shifts exEnv exEnv_noFault 2097149 fullSys 0 4 fullSys_wf rfl (by decide)
    (by decide) (by decide) (by decide)
    (fun k h1 h2 => by
      have hk : k = 1 ∨ k = 2 ∨ k = 3 := by omega
      rcases hk with rfl | rfl | rfl <;> rfl)
    (Or.inr rfl)
  obtain ⟨h1, h2, h3, h4, h5, h6, _⟩ := h
  obtain ⟨g1, g2, g3, g4, g5, g6, _⟩ := g
  have e1 := h3 1 (by decide) (by decide)
  have e2 := h3 2 (by decide) (by decide)
  have e4 := h4 4 (by decide)
  have f1 := g3 1 (by decide) (by decide)
  have f2 := g3 2 (by decide) (by decide)
  have f3 := g3 3 (by decide) (by decide)
  have f5 := g4 5 (by decide)
  rw [ringSys_slot1] at h2 e1
  rw [ringSys_slot2] at e1 e2
  rw [ringSys_slot3] at e2
  rw [ringSys_slot4] at e4
  rw [ringSys_path] at h5 h6
  rw [fullSys_slot1] at g2 f1
  rw [fullSys_slot2] at f1 f2
  rw [fullSys_slot3] at f2 f3
  rw [fullSys_slot4] at f3
  rw [fullSys_slot5] at f5
  rw [fullSys_path] at g5 g6
  exact ⟨⟨h1, h2.trans rfl, e1.trans rfl, e2.trans rfl, e4.trans rfl, h5, h6⟩,
    g1, g2.trans rfl, f1.trans rfl, f2.trans rfl, f3.trans rfl, f5.trans rfl, g5, g6⟩

/-- C3. Start with no backup file, the handle open on the active file, and
`1 <= RotateCnt`, and let `k` rounds follow one another on a file system that
does not fail, each a write to the active file and a call of `doRotate` whose
test triggers the rotation (`msgLen` plus the size of the file, as `int64`, is
not below `RotateSize`; the message lengths and the texts are free in every
round).  Then all rounds succeed; the backups that exist are exactly those
numbered `1` to `min k RotateCnt`; backup `j` holds the contents rotated `j`-th
most recently; and when `k` exceeds `RotateCnt` the file rotated first is no
backup any more. -/
theorem rotations_backups (env : Env) (hnf : NoFault env) (rs : List (String × Nat))
    (s : Sys) (a : Nat) (hwf : s.fs.wf) (hact : s.fs.dir s.cLogCfg.OutputFilePath = some a)
    (hhandle : s.fileRD = some a)
    (hnone : ∀ j, s.fs.dir (rotatePath s.cLogCfg.OutputFilePath j) = none)
    (hcnt : 1 ≤ s.cLogCfg.RotateCnt) (htrig : Triggered env rs s) :
    (rotations env rs s).2 = none
    ∧ (∀ j, ((rotations env rs s).1.fs.dir
          (rotatePath s.cLogCfg.OutputFilePath j)).isSome = true
        ↔ 1 ≤ j ∧ j ≤ rs.length ∧ (j : Int) ≤ s.cLogCfg.RotateCnt)
    ∧ (∀ j, 1 ≤ j → j ≤ rs.length → (j : Int) ≤ s.cLogCfg.RotateCnt →
        readFile (rotations env rs s).1.fs (rotatePath s.cLogCfg.OutputFilePath j)
          = (rotatedTexts (s.fs.data a) (rs.map Prod.fst))[rs.length - j]?)
    ∧ (s.cLogCfg.RotateCnt < (rs.length : Int) →
        ∀ j, (rotations env rs s).1.fs.dir (rotatePath s.cLogCfg.OutputFilePath j)
          ≠ some a) := by
  have hring0 : Ring s a [] :=
    ⟨hwf, hact, hhandle, fun j => (by rw [hnone j]; simp), fun p hp => (by cases hp),
      fun p hp => (by cases hp), fun p hp => (by cases hp), List.nodup_nil⟩
  obtain ⟨t, a', new, q1, q2, q3, q4, q5⟩ :=
    rotations_ring env hnf rs s a [] hring0 hcnt htrig
  rw [List.append_nil] at q2
  rw [q1]
  have hrl : (rotatedTexts (s.fs.data a) (rs.map Prod.fst)).length = rs.length := by
    cases rs <;> simp [rotatedTexts]
  have hlen : new.length = rs.length := by
    have := congrArg List.length q4
    rw [List.length_map, List.length_reverse, hrl] at this
    exact this
  have hslots := q2.slots
  rw [q3] at hslots
  refine ⟨rfl, ?_, ?_, ?_⟩
  · intro j
    show (t.fs.dir _).isSome = true ↔ _
    rw [hslots j]
    constructor
    · intro h
      split at h
      · rename_i hj
        refine ⟨hj.1, ?_, hj.2⟩
        cases hget : new[j - 1]? with
        | none => rw [hget] at h; cases h
        | some x =>
          have := (List.getElem?_eq_some.mp hget).1
          omega
      · cases h
    · rintro ⟨h1, h2, h3⟩
      rw [if_pos ⟨h1, h3⟩]
      have hlt : j - 1 < new.length := by omega
      rw [List.getElem?_eq_getElem hlt]
      rfl
  · intro j h1 h2 h3
    show readFile t.fs _ = _
    unfold readFile
    rw [hslots j, if_pos ⟨h1, h3⟩]
    have hlt : j - 1 < new.length := by omega
    have hmem : new[j - 1] ∈ new := List.getElem_mem hlt
    have hr : (rotatedTexts (s.fs.data a) (rs.map Prod.fst))[rs.length - j]?
        = ((rotatedTexts (s.fs.data a) (rs.map Prod.fst)).reverse)[j - 1]? := by
      rw [List.getElem?_reverse (by omega), hrl]
      congr 1
      omega
    rw [hr, ← q4, List.getElem?_map, List.getElem?_eq_getElem hlt]
    simp only [Option.map_some']
    rw [q2.contents _ hmem]
  · intro hk j
    show t.fs.dir _ ≠ some a
    intro hj
    rw [hslots j] at hj
    split at hj
    · rename_i hjr
      have hne : rs ≠ [] := by
        intro h
        rw [h] at hk
        simp at hk
        omega
      have hlast := q5 hne
      rw [List.getLast?_eq_getElem?, List.length_map, hlen] at hlast
      rw [← List.getElem?_map] at hj
      have hlt : j - 1 < (new.map Prod.fst).length := by
        cases hget : (new.map Prod.fst)[j - 1]? with
        | none => rw [hget] at hj; cases hj
        | some x => exact (List.getElem?_eq_some.mp hget).1
      have := List.getElem?_inj hlt q2.nodup (hj.trans hlast.symm)
      omega
    · cases hj

theorem rotations_backups_witness :
    (rotations exEnv [("a", 2097151), ("bb", 2097150), ("c", 2097152)] exSys).2 = none
      ∧ readFile (rotations exEnv [("a", 2097151), ("bb", 2097150), ("c", 2097152)] exSys).1.fs
          "log.txt.01" = some "c"
      ∧ readFile (rotations exEnv [("a", 2097151), ("bb", 2097150), ("c", 2097152)] exSys).1.fs
          "log.txt.02" = some "bb"
      ∧ readFile (rotations exEnv [("a", 2097151), ("bb", 2097150), ("c", 2097152)] exSys).1.fs
          "log.txt.03" = some "a"
      ∧ ¬ ((rotations exEnv [("a", 2097151), ("bb", 2097150), ("c", 2097152)] exSys).1.fs.dir
          "log.txt.04").isSome = true := by
  have hnone : ∀ j, exSys.fs.dir (rotatePath exSys.cLogCfg.OutputFilePath j) = none := by
    intro j
    rw [exSys_dir, if_neg]
    exact rotatePath_ne_self "log.txt" j
  have hring : Ring exSys 0 [] :=
    ⟨exSys_wf, rfl, rfl, fun j => (by rw [hnone j]; simp), fun p hp => (by cases hp),
      fun p hp => (by cases hp), fun p hp => (by cases hp), List.nodup_nil⟩
  have h := rotations_backups exEnv exEnv_noFault
    [("a", 2097151), ("bb", 2097150), ("c", 2097152)] exSys 0 exSys_wf rfl rfl hnone (by decide)
    (triggered_of_sizes exEnv exEnv_noFault _ exSys 0 [] hring (by decide)
      ⟨by decide, by decide, by decide, by decide, by decide, by decide, trivial⟩)
  rw [← exSys_slot1, ← exSys_slot2, ← exSys_slot3, ← exSys_slot4]
  refine ⟨h.1, (h.2.2.1 1 (by decide) (by decide) (by decide)).trans rfl,
    (h.2.2.1 2 (by decide) (by decide) (by decide)).trans rfl,
    (h.2.2.1 3 (by decide) (by decide) (by decide)).trans rfl, fun h4 => ?_⟩
  exact absurd ((h.2.1 4).mp h4).2.1 (by decide)

/-- C7, the code at a failing input.  With console and file output on,
`LogMsg(MsgErr, "%%d")` has the full message `... ERR: %d` followed by a
newline: this text is appended to the file, but standard output receives
`... ERR: %!d(MISSING)`, because the finished message is handed to
`fmt.Printf` as a format. -/
theorem LogMsg_console_reformats :
    exSys.cLogCfg.OutputToStdout = true ∧ exSys.cLogCfg.OutputToFile = true
      ∧ exSys.msgTypeShowList MsgErr = true
      ∧ (LogMsg exEnv exCaller MsgErr "%%d" [] exSys).2 = none
      ∧ (LogMsg exEnv exCaller MsgErr "%%d" [] exSys).1.stdout
          = exSys.stdout ++ ["2024/01/01-00:00:00 main.go(0042).ERR: %!d(MISSING)\n"]
      ∧ readFile (LogMsg exEnv exCaller MsgErr "%%d" [] exSys).1.fs "log.txt"
          = some "2024/01/01-00:00:00 main.go(0042).ERR: %d\n" := by
  refine ⟨rfl, rfl, rfl, ?_, ?_, ?_⟩ <;> rfl

/-- C9, the claim fails.  `DoInit` opens a log file of 2 MiB; the first
`LogMsg` call triggers a rotation whose rename of the active file fails (call
number 3), so it returns an error and leaves the handle nil; the level is
visible and file output is on; yet the second `LogMsg` call, with no
`DoInit` in between, returns success and has the handle open again. -/
theorem LogMsg_recovers_handle :
    (LogMsg (faultAt 3) exCaller MsgErr "m" [] bigInit).2.isSome = true
    ∧ (LogMsg (faultAt 3) exCaller MsgErr "m" [] bigInit).1.fileRD = none
    ∧ (LogMsg (faultAt 3) exCaller MsgErr "m" [] bigInit).1.msgTypeShowList MsgErr = true
    ∧ (LogMsg (faultAt 3) exCaller MsgErr "m" [] bigInit).1.cLogCfg.OutputToFile = true
    ∧ (LogMsg (faultAt 3) exCaller MsgErr "m" []
        (LogMsg (faultAt 3) exCaller MsgErr "m" [] bigInit).1).2 = none
    ∧ (LogMsg (faultAt 3) exCaller MsgErr "m" []
        (LogMsg (faultAt 3) exCaller MsgErr "m" [] bigInit).1).1.fileRD.isSome = true :=
  LogMsg_retry_recovers (faultAt 3) exCaller MsgErr "m" [] bigInit 0 rfl rfl rfl rfl rfl rfl
    (fun n hn => by
      have h1 : bigInit.tick = 1 := rfl
      rw [h1] at hn
      show (n == 3) = false
      simp
      omega)
    rfl rfl
    (fun t => by
      have h1 : (fullMsg (faultAt 3) exCaller MsgErr "m" [] t).utf8ByteSize = 41 := rfl
      have h2 : bigInit.fs.data 0 = bigText := rfl
      have h3 : bigInit.cLogCfg.RotateSize = 2097152 := rfl
      rw [h1, h2, bigText_size, h3]
      decide)

/-- C9, amended.  In a state whose handle is nil, a `LogMsg` call of a
visible level with file output on returns success only if rotation is on, the
stat of the active file succeeds, the threshold is reached and the rotation
runs to its end, reopening the file; whenever no rotation is triggered
(rotation off, failing stat, missing file, or below the threshold) the call
returns an error and the handle stays nil. -/
theorem LogMsg_nil_handle (env : Env) (c : Caller) (msgType : MsgType) (msgFmt : String)
    (msgArg : List Arg) (s : Sys) (hnil : s.fileRD = none)
    (hshow : s.msgTypeShowList msgType = true) (hfile : s.cLogCfg.OutputToFile = true) :
    ((LogMsg env c msgType msgFmt msgArg s).2 = none →
      s.cLogCfg.RotateFile = true
      ∧ (∃ i, env.fault s.tick = false ∧ s.fs.dir s.cLogCfg.OutputFilePath = some i
          ∧ ¬ wrapInt64 (((fullMsg env c msgType msgFmt msgArg s).utf8ByteSize : Int)
              + ((s.fs.data i).utf8ByteSize : Int)) < s.cLogCfg.RotateSize)
      ∧ (LogMsg env c msgType msgFmt msgArg s).1.fileRD = some s.fs.next)
    ∧ ((s.cLogCfg.RotateFile = true → ∀ i, env.fault s.tick = false →
          s.fs.dir s.cLogCfg.OutputFilePath = some i →
          wrapInt64 (((fullMsg env c msgType msgFmt msgArg s).utf8ByteSize : Int)
            + ((s.fs.data i).utf8ByteSize : Int)) < s.cLogCfg.RotateSize) →
        (LogMsg env c msgType msgFmt msgArg s).2.isSome = true
          ∧ (LogMsg env c msgType msgFmt msgArg s).1.fileRD = none) := by
  obtain ⟨b1, b2, b3, b4, b5⟩ := beforeFile_fields env c msgType msgFmt msgArg s
  rw [LogMsg_file env c msgType msgFmt msgArg s hshow hfile]
  unfold beforeWrite
  generalize beforeFile env c msgType msgFmt msgArg s = bf at b1 b2 b3 b4 b5 ⊢
  have hwnil : ∀ t : Sys, t.fileRD = none →
      fileWriteString env (fullMsg env c msgType msgFmt msgArg s) t = (t, some errInvalid) := by
    intro t ht
    unfold fileWriteString
    rw [ht]
  by_cases hrot : s.cLogCfg.RotateFile = true
  · rw [if_pos hrot]
    by_cases hfault : env.fault s.tick = true
    · obtain ⟨e1, _, e3, _⟩ := doRotate_of_stat_fault env
        (fullMsg env c msgType msgFmt msgArg s).utf8ByteSize bf (by rw [b2]; exact hfault)
      rcases hdr : doRotate env (fullMsg env c msgType msgFmt msgArg s).utf8ByteSize bf
        with ⟨s1, e⟩
      rw [hdr] at e1 e3
      simp only at e1 e3
      subst e1
      simp [e3, b4, hnil]
    · have hfault : env.fault s.tick = false := by simpa using hfault
      cases hdir : s.fs.dir s.cLogCfg.OutputFilePath with
      | none =>
        obtain ⟨e1, _, e3, _⟩ := doRotate_of_stat_missing env
          (fullMsg env c msgType msgFmt msgArg s).utf8ByteSize bf (by rw [b2]; exact hfault)
          (by rw [b1, b3]; exact hdir)
        rcases hdr : doRotate env (fullMsg env c msgType msgFmt msgArg s).utf8ByteSize bf
          with ⟨s1, e⟩
        rw [hdr] at e1 e3
        simp only at e1 e3
        subst e1
        simp [e3, b4, hnil]
      | some i =>
        rw [doRotate_of_stat env _ bf i (by rw [b2]; exact hfault) (by rw [b1, b3]; exact hdir)]
        by_cases hlt : wrapInt64 (((fullMsg env c msgType msgFmt msgArg s).utf8ByteSize : Int)
            + ((s.fs.data i).utf8ByteSize : Int)) < s.cLogCfg.RotateSize
        · rw [if_pos (by rw [b1, b3]; exact hlt)]
          simp only
          rw [hwnil _ (by show bf.fileRD = none; rw [b4]; exact hnil)]
          simp [b4, hnil]
        · rw [if_neg (by rw [b1, b3]; exact hlt)]
          obtain ⟨_, _, _, _, r5, r6⟩ := rotateFiles_spec env { bf with tick := bf.tick + 1 }
          rcases hrf : rotateFiles env { bf with tick := bf.tick + 1 } with ⟨s1, e⟩
          rw [hrf] at r5 r6
          simp only [b1, b3, b4] at r5 r6
          cases e with
          | some e =>
            have h5 := (r5 e rfl).2
            have hs1 : s1.fileRD = none := by
              rcases h5 with h | ⟨h, _⟩
              · exact h
              · rw [h]; exact hnil
            simp only [PrintMsg_fileRD, hs1]
            exact ⟨fun h => (by cases h), fun hyp => absurd (hyp hrot i hfault rfl) hlt⟩
          | none =>
            obtain ⟨a1, _⟩ := r6 rfl
            refine ⟨fun hok => ⟨hrot, ⟨i, hfault, rfl, hlt⟩, ?_⟩, fun hyp => ?_⟩
            · simp only at hok ⊢
              unfold fileWriteString at hok ⊢
              rw [a1] at hok ⊢
              simp only at hok ⊢
              by_cases hf : env.fault s1.tick = true
              · simp [hf] at hok
              · simp [hf, a1]
            · exact absurd (hyp hrot i hfault rfl) hlt
  · rw [if_neg hrot]
    simp only
    rw [hwnil bf (by rw [b4]; exact hnil)]
    simp [b4, hnil, hrot]

theorem LogMsg_nil_handle_witness :
    (LogMsg exEnv exCaller MsgErr "m" [] (DoExit exSys)).2.isSome = true
      ∧ (LogMsg exEnv exCaller MsgErr "m" [] (DoExit exSys)).1.fileRD = none :=
  (LogMsg_nil_handle exEnv exCaller MsgErr "m" [] (DoExit exSys) rfl rfl rfl).2
    (fun _ i _ hdir => by
      have hi : i = 0 := by
        have h0 : (DoExit exSys).fs.dir (DoExit exSys).cLogCfg.OutputFilePath = some 0 := rfl
        rw [h0] at hdir
        exact (Option.some.inj hdir).symm
      subst hi
      decide)

/-- C8, the claim fails.  In the state reached through `DoInit` with the
configuration of `main` (file output and rotation on, `RotateSize` 2 MiB), a
`LogMsg` call of the visible level `MsgErr` whose text is 2 MiB long returns
success, and the active file is then not below `RotateSize`. -/
theorem LogMsg_exceeds_threshold :
    Reached exEnv exSys ∧ exSys.msgTypeShowList MsgErr = true
    ∧ (LogMsg exEnv exCaller MsgErr bigText [] exSys).2 = none
    ∧ ∃ i, (LogMsg exEnv exCaller MsgErr bigText [] exSys).1.fs.dir "log.txt" = some i
      ∧ exSys.cLogCfg.RotateSize
          ≤ (((LogMsg exEnv exCaller MsgErr bigText [] exSys).1.fs.data i).utf8ByteSize : Int) :=
  ⟨exSys_reached, rfl,
    LogMsg_long_message exEnv exCaller MsgErr bigText [] exSys 0 "log.txt" rfl rfl rfl rfl
      (fun _ _ => rfl) rfl
      (by rw [exSys_bigMsg_size]; decide)
      (by rw [exSys_bigMsg_size]; decide)⟩

/-- C8, amended.  In every state reached through `DoInit` with file output
and rotation on, after a `LogMsg` call of a visible level that returns
success the size of the active log file is strictly below `RotateSize`,
provided the full message is shorter than `RotateSize` (and message and file
size add up within `int64`). -/
theorem LogMsg_keeps_below (env : Env) (c : Caller) (msgType : MsgType) (msgFmt : String)
    (msgArg : List Arg) (s : Sys) (hreach : Reached env s)
    (hshow : s.msgTypeShowList msgType = true)
    (hok : (LogMsg env c msgType msgFmt msgArg s).2 = none)
    (hshort : ((fullMsg env c msgType msgFmt msgArg s).utf8ByteSize : Int)
      < s.cLogCfg.RotateSize)
    (hrange : ∀ i, s.fs.dir s.cLogCfg.OutputFilePath = some i →
      ((fullMsg env c msgType msgFmt msgArg s).utf8ByteSize : Int)
        + ((s.fs.data i).utf8ByteSize : Int) < 2 ^ 63) :
    ∃ i, (LogMsg env c msgType msgFmt msgArg s).1.fs.dir s.cLogCfg.OutputFilePath = some i
      ∧ (((LogMsg env c msgType msgFmt msgArg s).1.fs.data i).utf8ByteSize : Int)
          < s.cLogCfg.RotateSize := by
  have hr := hreach.ready
  obtain ⟨b1, b2, b3, b4, b5⟩ := beforeFile_fields env c msgType msgFmt msgArg s
  rw [LogMsg_file env c msgType msgFmt msgArg s hshow hr.file] at hok ⊢
  unfold beforeWrite at hok ⊢
  rw [if_pos hr.rot] at hok ⊢
  generalize beforeFile env c msgType msgFmt msgArg s = bf at b1 b2 b3 b4 b5 hok ⊢
  obtain ⟨_, _, _, _, _, q6⟩ :=
    doRotate_spec env (fullMsg env c msgType msgFmt msgArg s).utf8ByteSize bf
  rcases hdr : doRotate env (fullMsg env c msgType msgFmt msgArg s).utf8ByteSize bf with ⟨s1, e⟩
  rw [hdr] at q6 hok
  simp only at q6 hok
  cases e with
  | some e => simp at hok
  | none =>
    simp only at hok ⊢
    unfold fileWriteString at hok ⊢
    cases hh : s1.fileRD with
    | none => simp [hh] at hok
    | some h =>
      simp only [hh] at hok ⊢
      by_cases hf : env.fault s1.tick = true
      · simp [hf] at hok
      · simp only [hf, Bool.false_eq_true, if_false]
        rcases q6 rfl with ⟨h1, h2, i, h3, h4⟩ | ⟨h1, h2, h3, _⟩
        · -- no rotation: the message was appended to the active file
          rw [b1, b3] at h3 h4
          rw [b4] at h2
          have hi : h = i := by
            have := hr.handle
            rw [← h2, hh, h3] at this
            rcases this with this | this
            · cases this
            · exact Option.some.inj this
          subst hi
          refine ⟨h, by rw [h1, b1]; exact h3, ?_⟩
          have hw := wrapInt64_of_range _ (by omega) (hrange h h3)
          rw [hw] at h4
          simp only [setData, if_true, h1, b1]
          rw [utf8ByteSize_append]
          push_cast
          omega
        · -- rotation: the message is all the new active file holds
          rw [b1] at h1 h3
          rw [b1, b3] at h2
          have hi : h = s.fs.next := by
            rw [hh] at h1
            exact Option.some.inj h1
          subst hi
          refine ⟨s.fs.next, h2, ?_⟩
          simp only [setData, if_true, h3]
          rw [String.empty_append]
          exact hshort

theorem LogMsg_keeps_below_witness :
    ∃ i, (LogMsg exEnv exCaller MsgErr "m" [] exSys).1.fs.dir exSys.cLogCfg.OutputFilePath = some i
      ∧ (((LogMsg exEnv exCaller MsgErr "m" [] exSys).1.fs.data i).utf8ByteSize : Int)
          < exSys.cLogCfg.RotateSize :=
  LogMsg_keeps_below exEnv exCaller MsgErr "m" [] exSys exSys_reached rfl rfl (by decide)
    (fun i hi => by
      have hi0 : i = 0 := by
        have h0 : exSys.fs.dir exSys.cLogCfg.OutputFilePath = some 0 := rfl
        rw [h0] at hi
        exact (Option.some.inj hi).symm
      subst hi0
      decide)

end Clog
